import Mathlib

/-!
# csi-replay: surface/context tracker and argument dispatcher

Shallow embedding of `util/cairo-script/csi-replay.c` (built with `SINGLE_SURFACE 1`).

* Pointers are identities: a `cairo_surface_t *` is a `Surf`, a `cairo_t *` is a `Ctx`.
* Every call into a library (cairo, Xlib, the script interpreter) appends a `Call` to a log,
  in program order, so "what the code did" is a statement about the log.
* Results of library calls that the file only consumes (`cairo_create`,
  `cairo_surface_status`, `XOpenDisplay`, `cairo_script_interpreter_destroy`) are
  parameters of the model. `cairo_surface_reference` returns its argument.
* The cairo surface constructors behind the factories are modelled from the specification
  (`cairo_surface_new`): each construction returns a surface not returned before.
* What the interpreter does inside `cairo_script_interpreter_run`, and the user-data
  destructors cairo runs when a surface dies, are outside `main` and not part of its trace.
* The global `list` is a Lean `List` of records; `malloc`/`free` of a cell are the
  cons and the removal of that cell (allocation is assumed to succeed, the C code
  does not check it).
-/

namespace CsiReplay

/-- Identity of a `cairo_surface_t *`. -/
abbrev Surf := Nat

/-- Identity of a `cairo_t *`. -/
abbrev Ctx := Nat

/-- Values of `cairo_status_t`. -/
abbrev Status := Nat

/-- The value `CAIRO_STATUS_SUCCESS` of `cairo_status_t`. -/
def CAIRO_STATUS_SUCCESS : Status := 0

/-- Values of `cairo_content_t` used by the file. -/
inductive Content where
  | CAIRO_CONTENT_COLOR
  | CAIRO_CONTENT_ALPHA
  | CAIRO_CONTENT_COLOR_ALPHA
  deriving DecidableEq, Repr

/-- The surface factories of the file, the values stored in `backends[].create`. -/
inductive Factory where
  | _image_surface_create
  | _xrender_surface_create
  | _xlib_surface_create
  | _pdf_surface_create
  | _ps_surface_create
  | _svg_surface_create
  deriving DecidableEq, Repr

/-- Library calls performed by the file, with the arguments that matter and, where the
call returns something the file uses, the value returned. -/
inductive Call where
  /-- The call `cr = cairo_create (surface)`. -/
  | cairo_create (surface : Surf) (cr : Ctx)
  | cairo_surface_reference (surface : Surf)
  | cairo_set_source_surface (cr : Ctx) (surface : Surf) (x y : Int)
  | cairo_paint (cr : Ctx)
  | cairo_destroy (cr : Ctx)
  | cairo_surface_destroy (surface : Surf)
  /-- The call `XOpenDisplay (NULL)`; `ok` says the result was not `NULL`. -/
  | XOpenDisplay (ok : Bool)
  | fprintf_stderr (msg : String)
  | exit (code : Int)
  | XCreateWindow (width height : Int)
  | XMapWindow
  | XRenderFindStandardFormat
  | XCreatePixmap (width height : Int)
  | cairo_surface_set_user_data (surface : Surf)
  /-- The cairo constructor called by factory `f`
  (`cairo_image_surface_create`, `cairo_xlib_surface_create`,
  `cairo_xlib_surface_create_with_xrender_format`, `cairo_pdf_surface_create_for_stream`,
  `cairo_ps_surface_create_for_stream`, `cairo_svg_surface_create_for_stream`)
  and the surface it returned. -/
  | surface_create (f : Factory) (width height : Int) (ret : Surf)
  | cairo_script_interpreter_create
  | cairo_script_interpreter_install_hooks (closure : Surf)
  | cairo_script_interpreter_run (path : String)
  | cairo_script_interpreter_destroy (ret : Int)
  deriving DecidableEq, Repr

/-! ## The surface/context tracker (`_context_create`, `_context_destroy`) -/

/-- One cell of `struct list` (the `next` link is the tail of the Lean list). -/
structure Rec where
  context : Ctx
  surface : Surf
  deriving DecidableEq, Repr

/-- What the hooks consume from cairo: the pointer `cairo_create` returns and the status
`cairo_surface_status` reports, each possibly depending on everything done before. -/
structure CairoEnv where
  cairo_create : List Call → Surf → Ctx
  cairo_surface_status : List Call → Surf → Status

/-- State the hooks act on: the global `list` and the log of library calls. -/
structure Tracker where
  list : List Rec
  log : List Call
  deriving DecidableEq, Repr

/-- The hook `_context_create (closure, surface)`: returns `cr` and the new state. -/
def _context_create (env : CairoEnv) (_closure : Surf) (surface : Surf) (t : Tracker) :
    Ctx × Tracker :=
  let cr := env.cairo_create t.log surface
  let l : Rec := { context := cr, surface := surface }
  (cr, { list := l :: t.list,
         log := t.log ++ [Call.cairo_create surface cr, Call.cairo_surface_reference surface] })

/-- Calls made by the body of `if (l->context == ptr) { ... }` for the cell `l`. -/
def destroy_calls (env : CairoEnv) (closure : Surf) (log : List Call) (l : Rec) : List Call :=
  (if env.cairo_surface_status log l.surface = CAIRO_STATUS_SUCCESS then
      let cr := env.cairo_create log closure
      [Call.cairo_create closure cr, Call.cairo_set_source_surface cr l.surface 0 0,
       Call.cairo_paint cr, Call.cairo_destroy cr]
    else [])
  ++ [Call.cairo_surface_destroy l.surface]

/-- The `while ((l = *prev) != NULL)` loop of `_context_destroy`, started with `*prev`
being the given list: returns the list that `*prev` heads afterwards and the calls made. -/
def _context_destroy_loop (env : CairoEnv) (closure : Surf) (ptr : Ctx) (log : List Call) :
    List Rec → List Rec × List Call
  | [] => ([], [])
  | l :: next =>
    if l.context = ptr then
      (next, destroy_calls env closure log l)
    else
      let r := _context_destroy_loop env closure ptr log next
      (l :: r.1, r.2)

/-- The hook `_context_destroy (closure, ptr)`. -/
def _context_destroy (env : CairoEnv) (closure : Surf) (ptr : Ctx) (t : Tracker) : Tracker :=
  let r := _context_destroy_loop env closure ptr t.log t.list
  { list := r.1, log := t.log ++ r.2 }

/-- A hook call made by the interpreter. -/
inductive Hook where
  | create (closure : Surf) (surface : Surf)
  | destroy (closure : Surf) (ptr : Ctx)
  deriving DecidableEq, Repr

/-- Effect of one hook call on the tracker. -/
def hook_step (env : CairoEnv) (t : Tracker) : Hook → Tracker
  | Hook.create closure surface => (_context_create env closure surface t).2
  | Hook.destroy closure ptr => _context_destroy env closure ptr t

/-- Effect of a sequence of hook calls. -/
def hook_run (env : CairoEnv) (t : Tracker) (hs : List Hook) : Tracker :=
  hs.foldl (hook_step env) t

/-- Matched order: `out` holds the contexts returned by creates of the sequence that
have not been destroyed yet; a destroy must name one of them, and at the end none is left. -/
def matched (env : CairoEnv) : Tracker → List Ctx → List Hook → Bool
  | _, out, [] => out.isEmpty
  | t, out, Hook.create closure surface :: hs =>
    let r := _context_create env closure surface t
    matched env r.2 (r.1 :: out) hs
  | t, out, Hook.destroy closure ptr :: hs =>
    decide (ptr ∈ out) && matched env (_context_destroy env closure ptr t) (out.erase ptr) hs

/-- Number of `cairo_surface_reference (s)` calls in a log. -/
def refs_taken (s : Surf) (log : List Call) : Nat :=
  log.count (Call.cairo_surface_reference s)

/-- Number of `cairo_surface_destroy (s)` calls in a log. -/
def refs_released (s : Surf) (log : List Call) : Nat :=
  log.count (Call.cairo_surface_destroy s)

/-- Number of records of the list holding surface `s`. -/
def held (s : Surf) (l : List Rec) : Nat :=
  l.countP (fun r => r.surface = s)

/-- All `cairo_surface_reference` calls of a log. -/
def all_refs_taken (log : List Call) : Nat :=
  log.countP (fun c => match c with | Call.cairo_surface_reference _ => true | _ => false)

/-- All `cairo_surface_destroy` calls of a log. -/
def all_refs_released (log : List Call) : Nat :=
  log.countP (fun c => match c with | Call.cairo_surface_destroy _ => true | _ => false)

/-! ## The surface factories and `main` -/

/-- The feature macros of `config.h` that decide which backends are compiled in. -/
structure Config where
  CAIRO_HAS_XLIB_XRENDER_SURFACE : Bool
  CAIRO_HAS_XLIB_SURFACE : Bool
  CAIRO_HAS_PDF_SURFACE : Bool
  CAIRO_HAS_PS_SURFACE : Bool
  CAIRO_HAS_SVG_SURFACE : Bool
  deriving DecidableEq, Repr

/-- What `main` consumes from outside the file: the build configuration, whether
`XOpenDisplay (NULL)` yields a display, and the value the interpreter teardown returns
(which may depend on everything done before). -/
structure ProcEnv where
  config : Config
  XOpenDisplay : Bool
  cairo_script_interpreter_destroy : List Call → Int

/-- State of the process: whether the `static Display *dpy` of `_get_display` is set,
how many surfaces have been constructed, and the library calls made so far. -/
structure Proc where
  dpy : Bool
  next_surface : Nat
  trace : List Call
  deriving DecidableEq, Repr

/-- Result of running a piece of the program: it returns a value, or the process has
ended through `exit (code)`. -/
inductive Result (α : Type) where
  | ok (value : α) (p : Proc)
  | exited (code : Int) (p : Proc)
  deriving DecidableEq, Repr

/-- Append calls to the trace. -/
def Proc.call (p : Proc) (cs : List Call) : Proc :=
  { p with trace := p.trace ++ cs }

/-- Modelled from the spec: the cairo surface constructors called by the factories
(`cairo_image_surface_create`, `cairo_xlib_surface_create`,
`cairo_xlib_surface_create_with_xrender_format`, `cairo_pdf_surface_create_for_stream`,
`cairo_ps_surface_create_for_stream`, `cairo_svg_surface_create_for_stream`) are not in
this file. The spec says each factory "returns a newly created surface": the surface
returned is one that no earlier construction returned, here the next unused number. -/
def cairo_surface_new (f : Factory) (width height : Int) (p : Proc) : Surf × Proc :=
  (p.next_surface,
   { p with next_surface := p.next_surface + 1,
            trace := p.trace ++ [Call.surface_create f width height p.next_surface] })

/-- The function `_get_display`: the cached display, or a newly opened one, or
`exit (1)` after the message when none can be opened. -/
def _get_display (env : ProcEnv) (p : Proc) : Result Unit :=
  if p.dpy then Result.ok () p
  else if env.XOpenDisplay then
    Result.ok () { p with dpy := true, trace := p.trace ++ [Call.XOpenDisplay true] }
  else
    Result.exited 1 (p.call [Call.XOpenDisplay false,
      Call.fprintf_stderr "Failed to open display.\n", Call.exit 1])

/-- The factory `_xlib_surface_create`. -/
def _xlib_surface_create (env : ProcEnv) (_closure : Option Surf) (_content : Content)
    (width height : Int) (_uid : Int) (p : Proc) : Result Surf :=
  match _get_display env p with
  | Result.exited code p1 => Result.exited code p1
  | Result.ok _ p1 =>
    let p2 := p1.call [Call.XCreateWindow (if width ≤ 0 then 1 else width)
                         (if height ≤ 0 then 1 else height), Call.XMapWindow]
    let r := cairo_surface_new Factory._xlib_surface_create width height p2
    Result.ok r.1 (r.2.call [Call.cairo_surface_set_user_data r.1])

/-- The factory `_xrender_surface_create`. -/
def _xrender_surface_create (env : ProcEnv) (_closure : Option Surf) (_content : Content)
    (width height : Int) (_uid : Int) (p : Proc) : Result Surf :=
  match _get_display env p with
  | Result.exited code p1 => Result.exited code p1
  | Result.ok _ p1 =>
    let p2 := p1.call [Call.XRenderFindStandardFormat, Call.XCreatePixmap width height]
    let r := cairo_surface_new Factory._xrender_surface_create width height p2
    Result.ok r.1 (r.2.call [Call.cairo_surface_set_user_data r.1])

/-- The factory `_pdf_surface_create`. -/
def _pdf_surface_create (_closure : Option Surf) (_content : Content)
    (width height : Int) (_uid : Int) (p : Proc) : Result Surf :=
  let r := cairo_surface_new Factory._pdf_surface_create width height p
  Result.ok r.1 r.2

/-- The factory `_ps_surface_create`. -/
def _ps_surface_create (_closure : Option Surf) (_content : Content)
    (width height : Int) (_uid : Int) (p : Proc) : Result Surf :=
  let r := cairo_surface_new Factory._ps_surface_create width height p
  Result.ok r.1 r.2

/-- The factory `_svg_surface_create`. -/
def _svg_surface_create (_closure : Option Surf) (_content : Content)
    (width height : Int) (_uid : Int) (p : Proc) : Result Surf :=
  let r := cairo_surface_new Factory._svg_surface_create width height p
  Result.ok r.1 r.2

/-- The factory `_image_surface_create`. -/
def _image_surface_create (_closure : Option Surf) (_content : Content)
    (width height : Int) (_uid : Int) (p : Proc) : Result Surf :=
  let r := cairo_surface_new Factory._image_surface_create width height p
  Result.ok r.1 r.2

/-- A call through a `csi_surface_create_func_t` pointer. -/
def call_factory (f : Factory) (env : ProcEnv) (closure : Option Surf) (content : Content)
    (width height : Int) (uid : Int) (p : Proc) : Result Surf :=
  match f with
  | Factory._image_surface_create => _image_surface_create closure content width height uid p
  | Factory._xrender_surface_create =>
    _xrender_surface_create env closure content width height uid p
  | Factory._xlib_surface_create => _xlib_surface_create env closure content width height uid p
  | Factory._pdf_surface_create => _pdf_surface_create closure content width height uid p
  | Factory._ps_surface_create => _ps_surface_create closure content width height uid p
  | Factory._svg_surface_create => _svg_surface_create closure content width height uid p

/-- One entry of the table `backends[]` of `main`. -/
structure Backend where
  name : String
  create : Factory
  deriving DecidableEq, Repr

/-- The table `backends[]` for a build configuration; the `{ NULL, NULL }` sentinel is
the end of the list. -/
def backends (cfg : Config) : List Backend :=
  { name := "--image", create := Factory._image_surface_create } ::
  ((if cfg.CAIRO_HAS_XLIB_XRENDER_SURFACE then
      [{ name := "--xrender", create := Factory._xrender_surface_create }] else []) ++
   (if cfg.CAIRO_HAS_XLIB_SURFACE then
      [{ name := "--xlib", create := Factory._xlib_surface_create }] else []) ++
   (if cfg.CAIRO_HAS_PDF_SURFACE then
      [{ name := "--pdf", create := Factory._pdf_surface_create }] else []) ++
   (if cfg.CAIRO_HAS_PS_SURFACE then
      [{ name := "--ps", create := Factory._ps_surface_create }] else []) ++
   (if cfg.CAIRO_HAS_SVG_SURFACE then
      [{ name := "--svg", create := Factory._svg_surface_create }] else []))

/-- The inner loop `for (b = backends; b->name != NULL; b++)` with its `strcmp` test:
the entry at which it breaks, or `none` when it reaches the sentinel. -/
def find_backend (arg : String) : List Backend → Option Backend
  | [] => none
  | b :: rest => if b.name = arg then some b else find_backend arg rest

/-- One iteration of `for (i = 1; i < argc; i++)` on `argv[i] = arg`, with `closure`
the value of `hooks.closure`; returns the new `hooks.closure`. -/
def main_iteration (env : ProcEnv) (arg : String) (closure : Surf) (p : Proc) : Result Surf :=
  match find_backend arg (backends env.config) with
  | some b =>
    let p1 := p.call [Call.cairo_surface_destroy closure]
    match call_factory b.create env none Content.CAIRO_CONTENT_COLOR_ALPHA 512 512 0 p1 with
    | Result.exited code p2 => Result.exited code p2
    | Result.ok closure2 p2 =>
      Result.ok closure2 (p2.call [Call.cairo_script_interpreter_install_hooks closure2])
  | none => Result.ok closure (p.call [Call.cairo_script_interpreter_run arg])

/-- The loop `for (i = 1; i < argc; i++)` over the remaining arguments. -/
def main_loop (env : ProcEnv) : List String → Surf → Proc → Result Surf
  | [], closure, p => Result.ok closure p
  | arg :: rest, closure, p =>
    match main_iteration env arg closure p with
    | Result.exited code p1 => Result.exited code p1
    | Result.ok closure1 p1 => main_loop env rest closure1 p1

/-- The part of `main` before the loop: the first target from `backends[0].create`, the
interpreter and the first installation of the hooks. -/
def main_setup (env : ProcEnv) : Result Surf :=
  match call_factory ((backends env.config).head (by simp [backends])).create env none
      Content.CAIRO_CONTENT_COLOR_ALPHA 512 512 0 { dpy := false, next_surface := 0, trace := [] }
  with
  | Result.exited code p => Result.exited code p
  | Result.ok closure p =>
    Result.ok closure (p.call [Call.cairo_script_interpreter_create,
      Call.cairo_script_interpreter_install_hooks closure])

/-- The function `main (argc, argv)`, with `argv[0]` the program name. -/
def main (env : ProcEnv) (argv : List String) : Result Int :=
  match main_setup env with
  | Result.exited code p => Result.exited code p
  | Result.ok closure p =>
    match main_loop env (argv.drop 1) closure p with
    | Result.exited code p1 => Result.exited code p1
    | Result.ok closure1 p1 =>
      let p2 := p1.call [Call.cairo_surface_destroy closure1]
      let ret := env.cairo_script_interpreter_destroy p2.trace
      Result.ok ret (p2.call [Call.cairo_script_interpreter_destroy ret])

/-! ### Observations on a trace -/

/-- Surfaces constructed, in order. -/
def created (T : List Call) : List Surf :=
  T.filterMap (fun c => match c with | Call.surface_create _ _ _ s => some s | _ => none)

/-- Surfaces handed to `cairo_surface_destroy`, in order. -/
def destroyed (T : List Call) : List Surf :=
  T.filterMap (fun c => match c with | Call.cairo_surface_destroy s => some s | _ => none)

/-- Paths handed to `cairo_script_interpreter_run`, in order. -/
def ran (T : List Call) : List String :=
  T.filterMap (fun c => match c with | Call.cairo_script_interpreter_run a => some a | _ => none)

/-- Whether an argument equals a name of the table. -/
def is_flag (cfg : Config) (arg : String) : Bool :=
  (find_backend arg (backends cfg)).isSome

/-- Whether an argument selects a backend whose factory calls `_get_display`. -/
def needs_display (cfg : Config) (arg : String) : Bool :=
  match find_backend arg (backends cfg) with
  | some b => decide (b.create = Factory._xlib_surface_create) ||
      decide (b.create = Factory._xrender_surface_create)
  | none => false

/-- The state of `main` when it enters the loop. -/
def proc_at_loop : Proc :=
  { dpy := false, next_surface := 1,
    trace := [Call.surface_create Factory._image_surface_create 512 512 0,
              Call.cairo_script_interpreter_create,
              Call.cairo_script_interpreter_install_hooks 0] }

/-- Surface constructions of a trace, in order: the factory whose constructor was called
and the surface it returned. -/
def constructions (T : List Call) : List (Factory × Surf) :=
  T.filterMap (fun c => match c with | Call.surface_create f _ _ s => some (f, s) | _ => none)

/-- The factory selected by the last argument of `args` that equals a table name, or `f`
when no argument of `args` does. -/
def factory_in_force (cfg : Config) (f : Factory) : List String → Factory
  | [] => f
  | a :: rest =>
    match find_backend a (backends cfg) with
    | some b => factory_in_force cfg b.create rest
    | none => factory_in_force cfg f rest

/-- The trace a result carries. -/
def Result.trace {α : Type} : Result α → List Call
  | Result.ok _ p => p.trace
  | Result.exited _ p => p.trace

/-- A build with every backend compiled in. -/
def config_all : Config :=
  { CAIRO_HAS_XLIB_XRENDER_SURFACE := true, CAIRO_HAS_XLIB_SURFACE := true,
    CAIRO_HAS_PDF_SURFACE := true, CAIRO_HAS_PS_SURFACE := true,
    CAIRO_HAS_SVG_SURFACE := true }

/-- A machine without an X display, interpreter teardown reporting `0`. -/
def env_headless : ProcEnv :=
  { config := config_all, XOpenDisplay := false,
    cairo_script_interpreter_destroy := fun _ => 0 }

/-- A machine with an X display, interpreter teardown reporting `3`. -/
def env_display : ProcEnv :=
  { config := config_all, XOpenDisplay := true,
    cairo_script_interpreter_destroy := fun _ => 3 }

/-- Calls that neither construct nor destroy a surface nor run a script. -/
def neutral (c : Call) : Bool :=
  match c with
  | Call.surface_create _ _ _ _ => false
  | Call.cairo_surface_destroy _ => false
  | Call.cairo_script_interpreter_run _ => false
  | _ => true

/-- A trace in which the surfaces `0 .. m-1` have been destroyed in that order and the
surfaces constructed are those, or those and `m`. -/
def trace_ok (pre : List Call) : Prop :=
  ∃ m, destroyed pre = List.range m ∧
    (created pre = List.range m ∨ created pre = List.range (m + 1))

/-- A trace in which the surface constructed last has not been destroyed. -/
def run_ok (pre : List Call) : Prop :=
  ∃ m, created pre = List.range (m + 1) ∧ destroyed pre = List.range m

/-- Invariant of the trace of `main`: `n` surfaces constructed, `m` destroyed, every
prefix in order, every script run with the latest target alive. -/
structure Inv (T : List Call) (m n : Nat) : Prop where
  created_eq : created T = List.range n
  destroyed_eq : destroyed T = List.range m
  order : n = m ∨ n = m + 1
  every_pre : ∀ pre, pre <+: T → trace_ok pre
  runs : ∀ pre path, pre ++ [Call.cairo_script_interpreter_run path] <+: T → run_ok pre

/-- A build with only the image backend, on a machine without an X display. -/
def env_image_only : ProcEnv :=
  { config := { CAIRO_HAS_XLIB_XRENDER_SURFACE := false, CAIRO_HAS_XLIB_SURFACE := false,
                CAIRO_HAS_PDF_SURFACE := false, CAIRO_HAS_PS_SURFACE := false,
                CAIRO_HAS_SVG_SURFACE := false },
    XOpenDisplay := false,
    cairo_script_interpreter_destroy := fun T => T.length }

/-! ### Sample inputs -/

/-- A cairo whose `cairo_create` always hands out the same pointer `7` (as the shared
error context does) and whose surfaces all report success. -/
def env_same : CairoEnv :=
  { cairo_create := fun _ _ => 7, cairo_surface_status := fun _ _ => CAIRO_STATUS_SUCCESS }

/-- A cairo whose `cairo_create` numbers contexts by the length of the log and whose
surface `20` is in an error state. -/
def env_fresh : CairoEnv :=
  { cairo_create := fun log _ => 100 + log.length,
    cairo_surface_status := fun _ s => if s = 20 then 1 else CAIRO_STATUS_SUCCESS }

/-- A tracker with three records, two of them for the context `7`. -/
def tracker_sample : Tracker :=
  { list := [{ context := 5, surface := 10 }, { context := 7, surface := 20 },
             { context := 7, surface := 30 }],
    log := [] }

/-! ### Lemmas about the removal loop -/

theorem destroy_loop_no_match (env : CairoEnv) (closure : Surf) (ptr : Ctx) (log : List Call)
    (L : List Rec) (h : ∀ r ∈ L, r.context ≠ ptr) :
    _context_destroy_loop env closure ptr log L = (L, []) := by
  induction L with
  | nil => rfl
  | cons l next ih =>
    have hl : l.context ≠ ptr := h l (List.mem_cons_self _ _)
    have hn : ∀ r ∈ next, r.context ≠ ptr := fun r hr => h r (List.mem_cons_of_mem _ hr)
    simp [_context_destroy_loop, hl, ih hn]

theorem destroy_loop_first_match (env : CairoEnv) (closure : Surf) (ptr : Ctx) (log : List Call)
    (pre : List Rec) (r : Rec) (post : List Rec) (hr : r.context = ptr)
    (hpre : ∀ x ∈ pre, x.context ≠ ptr) :
    _context_destroy_loop env closure ptr log (pre ++ r :: post)
      = (pre ++ post, destroy_calls env closure log r) := by
  induction pre with
  | nil => simp [_context_destroy_loop, hr]
  | cons l next ih =>
    have hl : l.context ≠ ptr := hpre l (List.mem_cons_self _ _)
    have hn : ∀ x ∈ next, x.context ≠ ptr := fun x hx => hpre x (List.mem_cons_of_mem _ hx)
    simp [_context_destroy_loop, hl, ih hn]

theorem exists_first_match (ptr : Ctx) (L : List Rec) (h : ∃ r ∈ L, r.context = ptr) :
    ∃ pre r post, L = pre ++ r :: post ∧ r.context = ptr ∧ ∀ x ∈ pre, x.context ≠ ptr := by
  induction L with
  | nil => obtain ⟨r, hr, _⟩ := h; cases hr
  | cons l next ih =>
    by_cases hl : l.context = ptr
    · exact ⟨[], l, next, rfl, hl, by simp⟩
    · have h2 : ∃ r ∈ next, r.context = ptr := by
        obtain ⟨r, hr, hc⟩ := h
        rcases List.mem_cons.mp hr with rfl | hr
        · exact absurd hc hl
        · exact ⟨r, hr, hc⟩
      obtain ⟨pre, r, post, he, hc, hp⟩ := ih h2
      refine ⟨l :: pre, r, post, by simp [he], hc, ?_⟩
      intro x hx
      rcases List.mem_cons.mp hx with rfl | hx
      · exact hl
      · exact hp x hx

theorem destroy_cases (env : CairoEnv) (closure : Surf) (ptr : Ctx) (t : Tracker) :
    ((∀ r ∈ t.list, r.context ≠ ptr) ∧ _context_destroy env closure ptr t = t) ∨
    (∃ pre r post, t.list = pre ++ r :: post ∧ r.context = ptr ∧
      (∀ x ∈ pre, x.context ≠ ptr) ∧
      _context_destroy env closure ptr t
        = { list := pre ++ post, log := t.log ++ destroy_calls env closure t.log r }) := by
  by_cases h : ∃ r ∈ t.list, r.context = ptr
  · right
    obtain ⟨pre, r, post, he, hc, hp⟩ := exists_first_match ptr t.list h
    refine ⟨pre, r, post, he, hc, hp, ?_⟩
    simp [_context_destroy, he, destroy_loop_first_match env closure ptr t.log pre r post hc hp]
  · left
    have hn : ∀ r ∈ t.list, r.context ≠ ptr := fun r hr hc => h ⟨r, hr, hc⟩
    refine ⟨hn, ?_⟩
    simp [_context_destroy, destroy_loop_no_match env closure ptr t.log t.list hn]

theorem destroy_loop_contexts (env : CairoEnv) (closure : Surf) (ptr : Ctx) (log : List Call)
    (L : List Rec) :
    (_context_destroy_loop env closure ptr log L).1.map Rec.context
      = (L.map Rec.context).erase ptr := by
  induction L with
  | nil => rfl
  | cons l next ih =>
    by_cases hl : l.context = ptr
    · simp [_context_destroy_loop, hl]
    · simp [_context_destroy_loop, hl, ih, List.erase_cons_tail]

theorem refs_taken_destroy_calls (env : CairoEnv) (closure : Surf) (log : List Call) (r : Rec)
    (s : Surf) : refs_taken s (destroy_calls env closure log r) = 0 := by
  unfold refs_taken destroy_calls
  split <;> simp

theorem refs_released_destroy_calls (env : CairoEnv) (closure : Surf) (log : List Call) (r : Rec)
    (s : Surf) :
    refs_released s (destroy_calls env closure log r) = if r.surface = s then 1 else 0 := by
  unfold refs_released destroy_calls
  split <;> simp [List.count_cons]

theorem all_refs_taken_destroy_calls (env : CairoEnv) (closure : Surf) (log : List Call)
    (r : Rec) : all_refs_taken (destroy_calls env closure log r) = 0 := by
  unfold all_refs_taken destroy_calls
  split <;> simp

theorem all_refs_released_destroy_calls (env : CairoEnv) (closure : Surf) (log : List Call)
    (r : Rec) : all_refs_released (destroy_calls env closure log r) = 1 := by
  unfold all_refs_released destroy_calls
  split <;> simp

theorem hook_step_balance (env : CairoEnv) (t : Tracker) (h : Hook)
    (ht : ∀ s, refs_taken s t.log = refs_released s t.log + held s t.list) :
    ∀ s, refs_taken s (hook_step env t h).log
      = refs_released s (hook_step env t h).log + held s (hook_step env t h).list := by
  intro s
  cases h with
  | create closure surface =>
    have := ht s
    simp only [hook_step, _context_create, refs_taken, refs_released, held] at this ⊢
    by_cases hs : surface = s
    · simp [List.count_cons, List.countP_cons, hs, this]; omega
    · simp [List.count_cons, List.countP_cons, hs, this]
  | destroy closure ptr =>
    rcases destroy_cases env closure ptr t with ⟨_, he⟩ | ⟨pre, r, post, hl, _, _, he⟩
    · simp only [hook_step, he]; exact ht s
    · have h1 := ht s
      have h2 := refs_taken_destroy_calls env closure t.log r s
      have h3 := refs_released_destroy_calls env closure t.log r s
      simp only [hook_step, he]
      simp only [refs_taken, refs_released, held, hl, List.count_append, List.countP_append,
        List.countP_cons] at h1 h2 h3 ⊢
      rw [h2, h3, h1]
      by_cases hs : r.surface = s
      · simp [hs]; omega
      · simp [hs]

theorem hook_step_balance_all (env : CairoEnv) (t : Tracker) (h : Hook)
    (ht : all_refs_taken t.log = all_refs_released t.log + t.list.length) :
    all_refs_taken (hook_step env t h).log
      = all_refs_released (hook_step env t h).log + (hook_step env t h).list.length := by
  cases h with
  | create closure surface =>
    simp only [hook_step, _context_create, all_refs_taken, all_refs_released] at ht ⊢
    simp [List.countP_cons, ht]; omega
  | destroy closure ptr =>
    rcases destroy_cases env closure ptr t with ⟨_, he⟩ | ⟨pre, r, post, hl, _, _, he⟩
    · simp only [hook_step, he]; exact ht
    · have h2 := all_refs_taken_destroy_calls env closure t.log r
      have h3 := all_refs_released_destroy_calls env closure t.log r
      simp only [hook_step, he]
      simp only [all_refs_taken, all_refs_released, hl, List.countP_append, List.length_append,
        List.length_cons] at ht h2 h3 ⊢
      rw [h2, h3, ht]; omega

theorem hook_run_balance (env : CairoEnv) (hs : List Hook) (t : Tracker)
    (ht : (∀ s, refs_taken s t.log = refs_released s t.log + held s t.list) ∧
      all_refs_taken t.log = all_refs_released t.log + t.list.length) :
    (∀ s, refs_taken s (hook_run env t hs).log
      = refs_released s (hook_run env t hs).log + held s (hook_run env t hs).list) ∧
    all_refs_taken (hook_run env t hs).log
      = all_refs_released (hook_run env t hs).log + (hook_run env t hs).list.length := by
  induction hs generalizing t with
  | nil => exact ht
  | cons h hs ih =>
    exact ih (hook_step env t h)
      ⟨hook_step_balance env t h ht.1, hook_step_balance_all env t h ht.2⟩

theorem matched_length (env : CairoEnv) (hs : List Hook) (t : Tracker) (out : List Ctx)
    (hsub : out.Subperm (t.list.map Rec.context)) (hm : matched env t out hs = true) :
    (hook_run env t hs).list.length = t.list.length - out.length ∧ out.length ≤ t.list.length := by
  induction hs generalizing t out with
  | nil =>
    have : out = [] := by simpa [matched] using hm
    subst this
    simp [hook_run]
  | cons h hs ih =>
    cases h with
    | create closure surface =>
      have hm2 : matched env (_context_create env closure surface t).2
          ((_context_create env closure surface t).1 :: out) hs = true := by
        simpa [matched] using hm
      have hsub2 : ((_context_create env closure surface t).1 :: out).Subperm
          ((_context_create env closure surface t).2.list.map Rec.context) := by
        simp only [_context_create, List.map_cons]
        exact (List.subperm_cons _).mpr hsub
      have := ih _ _ hsub2 hm2
      have hlen : (_context_create env closure surface t).2.list.length = t.list.length + 1 := by
        simp [_context_create]
      simp only [hook_run, List.foldl_cons, hook_step] at this ⊢
      simp only [hlen, List.length_cons] at this
      omega
    | destroy closure ptr =>
      have hm' : ptr ∈ out ∧ matched env (_context_destroy env closure ptr t) (out.erase ptr) hs
          = true := by
        simpa [matched] using hm
      obtain ⟨hmem, hm2⟩ := hm'
      have hctx : (_context_destroy env closure ptr t).list.map Rec.context
          = (t.list.map Rec.context).erase ptr := by
        simp [_context_destroy, destroy_loop_contexts]
      have hsub2 : (out.erase ptr).Subperm
          ((_context_destroy env closure ptr t).list.map Rec.context) := by
        rw [hctx]; exact hsub.erase ptr
      have hin : ptr ∈ t.list.map Rec.context := hsub.subset hmem
      have hlen : (_context_destroy env closure ptr t).list.length + 1 = t.list.length := by
        have := congrArg List.length hctx
        rw [List.length_map, List.length_erase_of_mem hin, List.length_map] at this
        have hpos : 0 < t.list.length := by
          have := List.length_pos_of_mem hin
          simpa using this
        omega
      have hout : (out.erase ptr).length + 1 = out.length := by
        rw [List.length_erase_of_mem hmem]
        have := List.length_pos_of_mem hmem
        omega
      have := ih _ _ hsub2 hm2
      simp only [hook_run, List.foldl_cons, hook_step] at this ⊢
      omega

/-! ### Claims about the tracker -/

/-- C6: `_context_create` returns the context that `cairo_create (surface)` produced, takes
exactly one new reference to `surface` (and none to any other surface), and leaves the list
equal to the record `(cr, surface)` followed by the old list. -/
theorem context_create_prepends (env : CairoEnv) (closure s : Surf) (t : Tracker) :
    (_context_create env closure s t).1 = env.cairo_create t.log s ∧
    (_context_create env closure s t).2.list
      = { context := env.cairo_create t.log s, surface := s } :: t.list ∧
    (_context_create env closure s t).2.log
      = t.log ++ [Call.cairo_create s (env.cairo_create t.log s),
                  Call.cairo_surface_reference s] ∧
    (∀ s', refs_taken s' (_context_create env closure s t).2.log
      = refs_taken s' t.log + if s' = s then 1 else 0) ∧
    all_refs_taken (_context_create env closure s t).2.log = all_refs_taken t.log + 1 := by
  refine ⟨rfl, rfl, rfl, ?_, ?_⟩
  · intro s'
    by_cases h : s' = s
    · simp [_context_create, refs_taken, List.count_cons, h]
    · have h' : ¬ s = s' := fun e => h e.symm
      simp [_context_create, refs_taken, List.count_cons, h, h']
  · simp [_context_create, all_refs_taken, List.countP_cons]

/-- C2: when no record of the list carries the context `ptr`, `_context_destroy` changes
nothing: the list is the same list and the log is the same log, so no call at all
(no composite, no surface release) was made. -/
theorem context_destroy_unmatched (env : CairoEnv) (closure : Surf) (ptr : Ctx) (t : Tracker)
    (h : ∀ r ∈ t.list, r.context ≠ ptr) :
    (_context_destroy env closure ptr t).list = t.list ∧
    (_context_destroy env closure ptr t).log = t.log := by
  simp [_context_destroy, destroy_loop_no_match env closure ptr t.log t.list h]

/-- Witness for C2: destroying the untracked context `9` in the sample tracker. -/
theorem context_destroy_unmatched_witness :
    (∀ r ∈ tracker_sample.list, r.context ≠ 9) ∧
    (_context_destroy env_fresh 0 9 tracker_sample).list = tracker_sample.list ∧
    (_context_destroy env_fresh 0 9 tracker_sample).log = tracker_sample.log :=
  ⟨by decide, context_destroy_unmatched env_fresh 0 9 tracker_sample (by decide)⟩

/-- C5: when the list has a record for `ptr`, `_context_destroy` takes the first such record
`r`; the calls it makes are the composite of `r.surface` onto `closure` at offset (0, 0)
(a context on `closure`, source `r.surface`, paint, destroy of that context) exactly when
`cairo_surface_status (r.surface)` is `CAIRO_STATUS_SUCCESS`, followed in both cases by one
`cairo_surface_destroy (r.surface)`; and `r` is unlinked. -/
theorem context_destroy_composites (env : CairoEnv) (closure : Surf) (ptr : Ctx) (t : Tracker)
    (h : ∃ r ∈ t.list, r.context = ptr) :
    ∃ pre r post, t.list = pre ++ r :: post ∧ r.context = ptr ∧
      (∀ x ∈ pre, x.context ≠ ptr) ∧
      (_context_destroy env closure ptr t).list = pre ++ post ∧
      (_context_destroy env closure ptr t).log
        = t.log ++
          (if env.cairo_surface_status t.log r.surface = CAIRO_STATUS_SUCCESS then
            [Call.cairo_create closure (env.cairo_create t.log closure),
             Call.cairo_set_source_surface (env.cairo_create t.log closure) r.surface 0 0,
             Call.cairo_paint (env.cairo_create t.log closure),
             Call.cairo_destroy (env.cairo_create t.log closure)]
           else []) ++ [Call.cairo_surface_destroy r.surface] ∧
      ((∃ cr, Call.cairo_set_source_surface cr r.surface 0 0
            ∈ (_context_destroy env closure ptr t).log.drop t.log.length)
        ↔ env.cairo_surface_status t.log r.surface = CAIRO_STATUS_SUCCESS) ∧
      refs_released r.surface (_context_destroy env closure ptr t).log
        = refs_released r.surface t.log + 1 := by
  rcases destroy_cases env closure ptr t with ⟨hn, _⟩ | ⟨pre, r, post, hl, hc, hp, he⟩
  · obtain ⟨r, hr, hc⟩ := h
    exact absurd hc (hn r hr)
  · refine ⟨pre, r, post, hl, hc, hp, by rw [he], ?_, ?_, ?_⟩
    · rw [he]; simp [destroy_calls]
    · rw [he]
      by_cases hs : env.cairo_surface_status t.log r.surface = CAIRO_STATUS_SUCCESS
      · simp [destroy_calls, hs]
      · simp [destroy_calls, hs]
    · rw [he]
      have := refs_released_destroy_calls env closure t.log r r.surface
      simp only [refs_released, List.count_append] at this ⊢
      rw [this]; simp

/-- Witness for C5: destroying context `7` in the sample tracker, whose first record for
`7` holds the surface `20`, which is in an error state. -/
theorem context_destroy_composites_witness :
    (∃ r ∈ tracker_sample.list, r.context = 7) ∧
    ∃ pre r post, tracker_sample.list = pre ++ r :: post ∧ r.context = 7 ∧
      (∀ x ∈ pre, x.context ≠ 7) ∧
      (_context_destroy env_fresh 0 7 tracker_sample).list = pre ++ post ∧
      (_context_destroy env_fresh 0 7 tracker_sample).log
        = tracker_sample.log ++
          (if env_fresh.cairo_surface_status tracker_sample.log r.surface
              = CAIRO_STATUS_SUCCESS then
            [Call.cairo_create 0 (env_fresh.cairo_create tracker_sample.log 0),
             Call.cairo_set_source_surface (env_fresh.cairo_create tracker_sample.log 0)
               r.surface 0 0,
             Call.cairo_paint (env_fresh.cairo_create tracker_sample.log 0),
             Call.cairo_destroy (env_fresh.cairo_create tracker_sample.log 0)]
           else []) ++ [Call.cairo_surface_destroy r.surface] ∧
      ((∃ cr, Call.cairo_set_source_surface cr r.surface 0 0
            ∈ (_context_destroy env_fresh 0 7 tracker_sample).log.drop
                tracker_sample.log.length)
        ↔ env_fresh.cairo_surface_status tracker_sample.log r.surface
            = CAIRO_STATUS_SUCCESS) ∧
      refs_released r.surface (_context_destroy env_fresh 0 7 tracker_sample).log
        = refs_released r.surface tracker_sample.log + 1 :=
  ⟨by decide, context_destroy_composites env_fresh 0 7 tracker_sample (by decide)⟩

/-- C8: when some record carries the context `ptr`, `_context_destroy` removes exactly the
first record whose context is `ptr`: the records before it (none of which matches) and all
records after it (matching or not) stay, in order, and the length drops by one. -/
theorem context_destroy_removes_first (env : CairoEnv) (closure : Surf) (ptr : Ctx)
    (t : Tracker) (h : ∃ r ∈ t.list, r.context = ptr) :
    ∃ pre r post, t.list = pre ++ r :: post ∧ r.context = ptr ∧
      (∀ x ∈ pre, x.context ≠ ptr) ∧
      (_context_destroy env closure ptr t).list = pre ++ post ∧
      (_context_destroy env closure ptr t).list.length + 1 = t.list.length := by
  rcases destroy_cases env closure ptr t with ⟨hn, _⟩ | ⟨pre, r, post, hl, hc, hp, he⟩
  · obtain ⟨r, hr, hc⟩ := h
    exact absurd hc (hn r hr)
  · refine ⟨pre, r, post, hl, hc, hp, by rw [he], ?_⟩
    rw [he, hl]; simp; omega

/-- Witness for C8: destroying context `7` in the sample tracker, which has two records
for `7`. -/
theorem context_destroy_removes_first_witness :
    (∃ r ∈ tracker_sample.list, r.context = 7) ∧
    ∃ pre r post, tracker_sample.list = pre ++ r :: post ∧ r.context = 7 ∧
      (∀ x ∈ pre, x.context ≠ 7) ∧
      (_context_destroy env_same 0 7 tracker_sample).list = pre ++ post ∧
      (_context_destroy env_same 0 7 tracker_sample).list.length + 1
        = tracker_sample.list.length :=
  ⟨by decide, context_destroy_removes_first env_same 0 7 tracker_sample (by decide)⟩

/-- C1: the list length after a sequence of hook calls in matched order equals the length
before it, for every initial tracker; and a destroy of the context a create just returned
gives back the very list from before the create, whatever that context's identity. -/
theorem matched_sequence_length (env : CairoEnv) (t : Tracker) :
    (∀ hs, matched env t [] hs = true → (hook_run env t hs).list.length = t.list.length) ∧
    (∀ closure closure' s,
      (_context_destroy env closure' (_context_create env closure s t).1
        (_context_create env closure s t).2).list = t.list) := by
  constructor
  · intro hs hm
    have := matched_length env hs t [] (List.nil_subperm) hm
    simpa using this.1
  · intro closure closure' s
    simp [_context_destroy, _context_create, _context_destroy_loop]

/-- Witness for C1: two creates that both return the already tracked context `7`, then
their two destroys. -/
theorem matched_sequence_length_witness :
    matched env_same tracker_sample []
      [Hook.create 0 40, Hook.create 0 50, Hook.destroy 0 7, Hook.destroy 0 7] = true ∧
    (hook_run env_same tracker_sample
      [Hook.create 0 40, Hook.create 0 50, Hook.destroy 0 7, Hook.destroy 0 7]).list.length
      = tracker_sample.list.length :=
  ⟨by decide, (matched_sequence_length env_same tracker_sample).1 _ (by decide)⟩

/-- C9: starting from the empty list, after any sequence of hook calls the references taken
exceed the references released by the number of records, for each surface and in total. -/
theorem reference_balance (env : CairoEnv) (hs : List Hook) :
    (∀ s, refs_taken s (hook_run env { list := [], log := [] } hs).log
        = refs_released s (hook_run env { list := [], log := [] } hs).log
          + held s (hook_run env { list := [], log := [] } hs).list) ∧
    (∀ s, refs_taken s (hook_run env { list := [], log := [] } hs).log
        - refs_released s (hook_run env { list := [], log := [] } hs).log
        = held s (hook_run env { list := [], log := [] } hs).list) ∧
    all_refs_taken (hook_run env { list := [], log := [] } hs).log
      = all_refs_released (hook_run env { list := [], log := [] } hs).log
        + (hook_run env { list := [], log := [] } hs).list.length ∧
    all_refs_taken (hook_run env { list := [], log := [] } hs).log
      - all_refs_released (hook_run env { list := [], log := [] } hs).log
      = (hook_run env { list := [], log := [] } hs).list.length := by
  have h := hook_run_balance env hs { list := [], log := [] }
    ⟨by intro s; simp [refs_taken, refs_released, held],
     by simp [all_refs_taken, all_refs_released]⟩
  refine ⟨h.1, fun s => ?_, h.2, ?_⟩
  · have := h.1 s; omega
  · have := h.2; omega

/-! ### Lemmas about the trace of `main` -/

theorem inv_nil : Inv [] 0 0 := by
  refine ⟨rfl, rfl, Or.inl rfl, ?_, ?_⟩
  · intro pre hpre
    have : pre = [] := List.prefix_nil.mp hpre
    subst this
    exact ⟨0, rfl, Or.inl rfl⟩
  · intro pre path hpre
    have := List.prefix_nil.mp hpre
    simp at this

theorem inv_concat {T : List Call} {m n : Nat} (h : Inv T m n) (e : Call) (m' n' : Nat)
    (hc : created (T ++ [e]) = List.range n') (hd : destroyed (T ++ [e]) = List.range m')
    (ho : n' = m' ∨ n' = m' + 1)
    (hr : ∀ path, e = Call.cairo_script_interpreter_run path → n = m + 1) :
    Inv (T ++ [e]) m' n' := by
  refine ⟨hc, hd, ho, ?_, ?_⟩
  · intro pre hpre
    rcases List.prefix_concat_iff.mp hpre with rfl | hp
    · refine ⟨m', hd, ?_⟩
      rcases ho with rfl | rfl
      · exact Or.inl hc
      · exact Or.inr hc
    · exact h.every_pre pre hp
  · intro pre path hpre
    rcases List.prefix_concat_iff.mp hpre with he | hp
    · have hlen : ([Call.cairo_script_interpreter_run path] : List Call).length
          = ([e] : List Call).length := rfl
      obtain ⟨h1, h2⟩ := List.append_inj' he hlen
      subst h1
      have he' : e = Call.cairo_script_interpreter_run path := by
        simpa using h2.symm
      have hn := hr path he'
      exact ⟨m, by rw [h.created_eq, hn], h.destroyed_eq⟩
    · exact h.runs pre path hp

theorem inv_neutral {T : List Call} {m n : Nat} (h : Inv T m n) (e : Call)
    (he : neutral e = true) : Inv (T ++ [e]) m n := by
  apply inv_concat h e m n
  · rw [← h.created_eq]
    cases e <;> simp [created, neutral] at he ⊢
  · rw [← h.destroyed_eq]
    cases e <;> simp [destroyed, neutral] at he ⊢
  · exact h.order
  · intro path hp
    subst hp
    simp [neutral] at he

theorem inv_neutrals {T : List Call} {m n : Nat} (h : Inv T m n) (es : List Call)
    (he : ∀ e ∈ es, neutral e = true) : Inv (T ++ es) m n := by
  induction es generalizing T with
  | nil => simpa using h
  | cons e es ih =>
    have h1 := inv_neutral h e (he e (List.mem_cons_self _ _))
    have h2 := ih h1 (fun x hx => he x (List.mem_cons_of_mem _ hx))
    simpa using h2

theorem inv_create {T : List Call} {m : Nat} (h : Inv T m m) (f : Factory) (w ht : Int) :
    Inv (T ++ [Call.surface_create f w ht m]) m (m + 1) := by
  apply inv_concat h _ m (m + 1)
  · simp [created, List.range_succ]
    exact h.created_eq
  · rw [← h.destroyed_eq]
    simp [destroyed]
  · exact Or.inr rfl
  · intro path hp
    simp at hp

theorem inv_destroy {T : List Call} {m : Nat} (h : Inv T m (m + 1)) :
    Inv (T ++ [Call.cairo_surface_destroy m]) (m + 1) (m + 1) := by
  apply inv_concat h _ (m + 1) (m + 1)
  · rw [← h.created_eq]
    simp [created]
  · simp [destroyed, List.range_succ]
    exact h.destroyed_eq
  · exact Or.inl rfl
  · intro path hp
    simp at hp

theorem inv_run {T : List Call} {m : Nat} (h : Inv T m (m + 1)) (path : String) :
    Inv (T ++ [Call.cairo_script_interpreter_run path]) m (m + 1) := by
  apply inv_concat h _ m (m + 1)
  · rw [← h.created_eq]
    simp [created]
  · rw [← h.destroyed_eq]
    simp [destroyed]
  · exact Or.inr rfl
  · intro _ _
    rfl

theorem created_append (A B : List Call) : created (A ++ B) = created A ++ created B := by
  simp [created]

theorem destroyed_append (A B : List Call) :
    destroyed (A ++ B) = destroyed A ++ destroyed B := by
  simp [destroyed]

theorem ran_append (A B : List Call) : ran (A ++ B) = ran A ++ ran B := by
  simp [ran]

theorem ran_neutrals (es : List Call) (he : ∀ e ∈ es, neutral e = true) : ran es = [] := by
  induction es with
  | nil => rfl
  | cons e es ih =>
    have h1 := he e (List.mem_cons_self _ _)
    have h2 := ih (fun x hx => he x (List.mem_cons_of_mem _ hx))
    have h3 : ran (e :: es) = ran [e] ++ ran es := ran_append [e] es
    rw [h3, h2]
    cases e <;> simp [ran, neutral] at h1 ⊢

theorem created_neutrals (es : List Call) (he : ∀ e ∈ es, neutral e = true) :
    created es = [] := by
  induction es with
  | nil => rfl
  | cons e es ih =>
    have h1 := he e (List.mem_cons_self _ _)
    have h2 := ih (fun x hx => he x (List.mem_cons_of_mem _ hx))
    have h3 : created (e :: es) = created [e] ++ created es := created_append [e] es
    rw [h3, h2]
    cases e <;> simp [created, neutral] at h1 ⊢

theorem call_factory_ok (env : ProcEnv) (f : Factory) (closure : Option Surf)
    (content : Content) (w h : Int) (uid : Int) (p : Proc)
    (hd : env.XOpenDisplay = true ∨ p.dpy = true ∨
      (f ≠ Factory._xlib_surface_create ∧ f ≠ Factory._xrender_surface_create)) :
    ∃ p' e1 e2, call_factory f env closure content w h uid p = Result.ok p.next_surface p' ∧
      p'.next_surface = p.next_surface + 1 ∧
      p'.trace = p.trace ++ e1 ++ [Call.surface_create f w h p.next_surface] ++ e2 ∧
      (∀ e ∈ e1, neutral e = true) ∧ (∀ e ∈ e2, neutral e = true) := by
  cases f with
  | _image_surface_create =>
    exact ⟨_, [], [], rfl, rfl, by simp [cairo_surface_new], by simp, by simp⟩
  | _pdf_surface_create =>
    exact ⟨_, [], [], rfl, rfl, by simp [cairo_surface_new], by simp, by simp⟩
  | _ps_surface_create =>
    exact ⟨_, [], [], rfl, rfl, by simp [cairo_surface_new], by simp, by simp⟩
  | _svg_surface_create =>
    exact ⟨_, [], [], rfl, rfl, by simp [cairo_surface_new], by simp, by simp⟩
  | _xlib_surface_create =>
    by_cases hdpy : p.dpy = true
    · refine ⟨{ dpy := p.dpy, next_surface := p.next_surface + 1,
                trace := p.trace ++ [Call.XCreateWindow (if w ≤ 0 then 1 else w)
                  (if h ≤ 0 then 1 else h), Call.XMapWindow]
                  ++ [Call.surface_create Factory._xlib_surface_create w h p.next_surface]
                  ++ [Call.cairo_surface_set_user_data p.next_surface] },
        [Call.XCreateWindow (if w ≤ 0 then 1 else w) (if h ≤ 0 then 1 else h),
        Call.XMapWindow], [Call.cairo_surface_set_user_data p.next_surface], ?_, rfl, rfl, ?_, ?_⟩
      · simp [call_factory, _xlib_surface_create, _get_display, hdpy, cairo_surface_new,
          Proc.call]
      · simp [neutral]
      · simp [neutral]
    · have hx : env.XOpenDisplay = true := by
        rcases hd with hd | hd | hd
        · exact hd
        · exact absurd hd hdpy
        · exact absurd rfl hd.1
      refine ⟨{ dpy := true, next_surface := p.next_surface + 1,
                trace := p.trace ++ [Call.XOpenDisplay true,
                  Call.XCreateWindow (if w ≤ 0 then 1 else w)
                  (if h ≤ 0 then 1 else h), Call.XMapWindow]
                  ++ [Call.surface_create Factory._xlib_surface_create w h p.next_surface]
                  ++ [Call.cairo_surface_set_user_data p.next_surface] },
        [Call.XOpenDisplay true,
        Call.XCreateWindow (if w ≤ 0 then 1 else w) (if h ≤ 0 then 1 else h),
        Call.XMapWindow], [Call.cairo_surface_set_user_data p.next_surface], ?_, rfl, rfl, ?_, ?_⟩
      · simp [call_factory, _xlib_surface_create, _get_display, hdpy, hx, cairo_surface_new,
          Proc.call]
      · simp [neutral]
      · simp [neutral]
  | _xrender_surface_create =>
    by_cases hdpy : p.dpy = true
    · refine ⟨{ dpy := p.dpy, next_surface := p.next_surface + 1,
                trace := p.trace ++ [Call.XRenderFindStandardFormat, Call.XCreatePixmap w h]
                  ++ [Call.surface_create Factory._xrender_surface_create w h p.next_surface]
                  ++ [Call.cairo_surface_set_user_data p.next_surface] },
        [Call.XRenderFindStandardFormat, Call.XCreatePixmap w h],
        [Call.cairo_surface_set_user_data p.next_surface], ?_, rfl, rfl, ?_, ?_⟩
      · simp [call_factory, _xrender_surface_create, _get_display, hdpy, cairo_surface_new,
          Proc.call]
      · simp [neutral]
      · simp [neutral]
    · have hx : env.XOpenDisplay = true := by
        rcases hd with hd | hd | hd
        · exact hd
        · exact absurd hd hdpy
        · exact absurd rfl hd.2
      refine ⟨{ dpy := true, next_surface := p.next_surface + 1,
                trace := p.trace ++ [Call.XOpenDisplay true, Call.XRenderFindStandardFormat,
                  Call.XCreatePixmap w h]
                  ++ [Call.surface_create Factory._xrender_surface_create w h p.next_surface]
                  ++ [Call.cairo_surface_set_user_data p.next_surface] },
        [Call.XOpenDisplay true, Call.XRenderFindStandardFormat,
        Call.XCreatePixmap w h], [Call.cairo_surface_set_user_data p.next_surface],
        ?_, rfl, rfl, ?_, ?_⟩
      · simp [call_factory, _xrender_surface_create, _get_display, hdpy, hx, cairo_surface_new,
          Proc.call]
      · simp [neutral]
      · simp [neutral]

theorem find_backend_some (arg : String) (L : List Backend) (b : Backend)
    (h : find_backend arg L = some b) : b ∈ L ∧ b.name = arg := by
  induction L with
  | nil => simp [find_backend] at h
  | cons x rest ih =>
    by_cases hx : x.name = arg
    · simp [find_backend, hx] at h
      subst h
      exact ⟨List.mem_cons_self _ _, hx⟩
    · simp [find_backend, hx] at h
      exact ⟨List.mem_cons_of_mem _ (ih h).1, (ih h).2⟩

theorem find_backend_none (arg : String) (L : List Backend)
    (h : find_backend arg L = none) : ∀ b ∈ L, b.name ≠ arg := by
  induction L with
  | nil => simp
  | cons x rest ih =>
    by_cases hx : x.name = arg
    · simp [find_backend, hx] at h
    · simp [find_backend, hx] at h
      intro b hb
      rcases List.mem_cons.mp hb with rfl | hb
      · exact hx
      · exact ih h b hb

theorem call_factory_exits (env : ProcEnv) (f : Factory) (closure : Option Surf)
    (content : Content) (w h : Int) (uid : Int) (p : Proc)
    (hx : env.XOpenDisplay = false) (hdpy : p.dpy = false)
    (hf : f = Factory._xlib_surface_create ∨ f = Factory._xrender_surface_create) :
    call_factory f env closure content w h uid p
      = Result.exited 1 (p.call [Call.XOpenDisplay false,
          Call.fprintf_stderr "Failed to open display.\n", Call.exit 1]) := by
  rcases hf with rfl | rfl
  · simp [call_factory, _xlib_surface_create, _get_display, hx, hdpy]
  · simp [call_factory, _xrender_surface_create, _get_display, hx, hdpy]

theorem call_factory_shape (env : ProcEnv) (f : Factory) (closure : Option Surf)
    (content : Content) (w h : Int) (uid : Int) (p : Proc) (s : Surf) (p' : Proc)
    (hr : call_factory f env closure content w h uid p = Result.ok s p') :
    s = p.next_surface ∧ p'.next_surface = p.next_surface + 1 ∧
    ∃ e1 e2, p'.trace = p.trace ++ e1 ++ [Call.surface_create f w h s] ++ e2 ∧
      (∀ e ∈ e1, neutral e = true) ∧ (∀ e ∈ e2, neutral e = true) := by
  by_cases hd : env.XOpenDisplay = true ∨ p.dpy = true ∨
      (f ≠ Factory._xlib_surface_create ∧ f ≠ Factory._xrender_surface_create)
  · obtain ⟨q, e1, e2, h1, h2, h3, h4, h5⟩ :=
      call_factory_ok env f closure content w h uid p hd
    rw [h1] at hr
    injection hr with hs hq
    subst hs; subst hq
    exact ⟨rfl, h2, e1, e2, h3, h4, h5⟩
  · have hx : env.XOpenDisplay = false := by
      cases hxx : env.XOpenDisplay
      · rfl
      · exact absurd (Or.inl hxx) hd
    have hdpy : p.dpy = false := by
      cases hxx : p.dpy
      · rfl
      · exact absurd (Or.inr (Or.inl hxx)) hd
    have hf : f = Factory._xlib_surface_create ∨ f = Factory._xrender_surface_create := by
      by_contra hcon
      exact hd (Or.inr (Or.inr ⟨fun e => hcon (Or.inl e), fun e => hcon (Or.inr e)⟩))
    rw [call_factory_exits env f closure content w h uid p hx hdpy hf] at hr
    cases hr

theorem is_flag_iff (cfg : Config) (arg : String) :
    is_flag cfg arg = true ↔ arg ∈ (backends cfg).map Backend.name := by
  unfold is_flag
  cases hf : find_backend arg (backends cfg) with
  | none =>
    have := find_backend_none arg _ hf
    simp only [Option.isSome_none, List.mem_map]
    constructor
    · intro h; cases h
    · rintro ⟨b, hb, hn⟩
      exact absurd hn (this b hb)
  | some b =>
    have := find_backend_some arg _ b hf
    simp only [Option.isSome_some, List.mem_map, true_iff]
    exact ⟨b, this.1, this.2⟩

theorem main_setup_eq (env : ProcEnv) : main_setup env = Result.ok 0 proc_at_loop := rfl

theorem inv_at_loop : Inv proc_at_loop.trace 0 1 := by
  have h1 := inv_create inv_nil Factory._image_surface_create 512 512
  have h2 := inv_neutrals h1 [Call.cairo_script_interpreter_create,
    Call.cairo_script_interpreter_install_hooks 0] (by simp [neutral])
  simpa [proc_at_loop] using h2

theorem main_iteration_inv (env : ProcEnv) (arg : String) (c : Surf) (p : Proc)
    (c' : Surf) (p' : Proc) (hr : main_iteration env arg c p = Result.ok c' p')
    (hn : p.next_surface = c + 1) (hI : Inv p.trace c (c + 1)) :
    p'.next_surface = c' + 1 ∧ Inv p'.trace c' (c' + 1) ∧
    c' = c + (if is_flag env.config arg = true then 1 else 0) ∧
    ran p'.trace = ran p.trace ++ (if is_flag env.config arg = true then [] else [arg]) := by
  unfold main_iteration at hr
  unfold is_flag
  cases hf : find_backend arg (backends env.config) with
  | none =>
    rw [hf] at hr
    injection hr with hc hp
    subst hc; subst hp
    refine ⟨hn, ?_, by simp, ?_⟩
    · exact inv_run hI arg
    · simp [Proc.call, ran]
  | some b =>
    rw [hf] at hr
    simp only at hr
    cases hcf : call_factory b.create env none Content.CAIRO_CONTENT_COLOR_ALPHA 512 512 0
        (p.call [Call.cairo_surface_destroy c]) with
    | exited code q =>
      rw [hcf] at hr
      cases hr
    | ok s q =>
      rw [hcf] at hr
      injection hr with hc hp
      subst hc; subst hp
      obtain ⟨hs, hq, e1, e2, ht, h1, h2⟩ := call_factory_shape _ _ _ _ _ _ _ _ _ _ hcf
      have hs' : s = c + 1 := by rw [hs]; exact hn
      subst hs'
      have i1 := inv_destroy hI
      have i2 := inv_neutrals i1 e1 h1
      have i3 := inv_create i2 b.create 512 512
      have i4 := inv_neutrals i3 e2 h2
      have i5 := inv_neutral i4 (Call.cairo_script_interpreter_install_hooks (c + 1)) rfl
      refine ⟨?_, ?_, by simp, ?_⟩
      · simp only [Proc.call]; rw [hq]; simp [Proc.call, hn]
      · simp only [Proc.call] at ht ⊢
        rw [ht]; exact i5
      · simp only [Proc.call] at ht ⊢
        rw [ht]
        simp only [ran_append, ran_neutrals e1 h1, ran_neutrals e2 h2]
        simp [ran]

theorem main_iteration_total (env : ProcEnv) (arg : String) (c : Surf) (p : Proc)
    (hd : env.XOpenDisplay = true ∨ needs_display env.config arg = false) :
    ∃ c' p', main_iteration env arg c p = Result.ok c' p' := by
  unfold main_iteration
  cases hf : find_backend arg (backends env.config) with
  | none => exact ⟨_, _, rfl⟩
  | some b =>
    have hd' : env.XOpenDisplay = true ∨ (p.call [Call.cairo_surface_destroy c]).dpy = true ∨
        (b.create ≠ Factory._xlib_surface_create ∧
         b.create ≠ Factory._xrender_surface_create) := by
      rcases hd with hd | hd
      · exact Or.inl hd
      · right; right
        simpa [needs_display, hf] using hd
    obtain ⟨q, _, _, h1, _⟩ := call_factory_ok env b.create none
      Content.CAIRO_CONTENT_COLOR_ALPHA 512 512 0 (p.call [Call.cairo_surface_destroy c]) hd'
    simp only [h1]
    exact ⟨_, _, rfl⟩

theorem main_loop_inv (env : ProcEnv) (args : List String) (c : Surf) (p : Proc)
    (c' : Surf) (p' : Proc) (hr : main_loop env args c p = Result.ok c' p')
    (hn : p.next_surface = c + 1) (hI : Inv p.trace c (c + 1)) :
    p'.next_surface = c' + 1 ∧ Inv p'.trace c' (c' + 1) ∧
    c' = c + (args.filter (fun a => is_flag env.config a)).length ∧
    ran p'.trace = ran p.trace ++ args.filter (fun a => !is_flag env.config a) := by
  induction args generalizing c p with
  | nil =>
    simp only [main_loop] at hr
    injection hr with hc hp
    subst hc; subst hp
    exact ⟨hn, hI, by simp, by simp⟩
  | cons a rest ih =>
    simp only [main_loop] at hr
    cases hit : main_iteration env a c p with
    | exited code q =>
      rw [hit] at hr
      cases hr
    | ok c1 p1 =>
      rw [hit] at hr
      obtain ⟨h1, h2, h3, h4⟩ := main_iteration_inv env a c p c1 p1 hit hn hI
      obtain ⟨g1, g2, g3, g4⟩ := ih c1 p1 hr h1 h2
      refine ⟨g1, g2, ?_, ?_⟩
      · by_cases hfl : is_flag env.config a = true
        · have hl : (List.filter (fun a => is_flag env.config a) (a :: rest)).length
              = (List.filter (fun a => is_flag env.config a) rest).length + 1 := by
            simp [List.filter_cons, hfl]
          rw [g3, h3, hl, if_pos hfl]; ac_rfl
        · have hl : (List.filter (fun a => is_flag env.config a) (a :: rest)).length
              = (List.filter (fun a => is_flag env.config a) rest).length := by
            simp [List.filter_cons, hfl]
          rw [g3, h3, hl, if_neg hfl]; simp
      · rw [g4, h4]
        by_cases hfl : is_flag env.config a = true
        · simp [List.filter_cons, hfl]
        · simp [List.filter_cons, hfl]

theorem main_loop_total (env : ProcEnv) (args : List String) (c : Surf) (p : Proc)
    (hd : env.XOpenDisplay = true ∨ ∀ a ∈ args, needs_display env.config a = false) :
    ∃ c' p', main_loop env args c p = Result.ok c' p' := by
  induction args generalizing c p with
  | nil => exact ⟨c, p, rfl⟩
  | cons a rest ih =>
    have hda : env.XOpenDisplay = true ∨ needs_display env.config a = false := by
      rcases hd with hd | hd
      · exact Or.inl hd
      · exact Or.inr (hd a (List.mem_cons_self _ _))
    have hdr : env.XOpenDisplay = true ∨ ∀ x ∈ rest, needs_display env.config x = false := by
      rcases hd with hd | hd
      · exact Or.inl hd
      · exact Or.inr (fun x hx => hd x (List.mem_cons_of_mem _ hx))
    obtain ⟨c1, p1, h1⟩ := main_iteration_total env a c p hda
    obtain ⟨c2, p2, h2⟩ := ih c1 p1 hdr
    exact ⟨c2, p2, by simp only [main_loop, h1, h2]⟩

theorem main_loop_append (env : ProcEnv) (pre post : List String) (c : Surf) (p : Proc)
    (c1 : Surf) (p1 : Proc) (hr : main_loop env pre c p = Result.ok c1 p1) :
    main_loop env (pre ++ post) c p = main_loop env post c1 p1 := by
  induction pre generalizing c p with
  | nil =>
    simp only [main_loop] at hr
    injection hr with hc hp
    subst hc; subst hp
    rfl
  | cons a rest ih =>
    simp only [main_loop, List.cons_append] at hr ⊢
    cases hit : main_iteration env a c p with
    | exited code q =>
      rw [hit] at hr
      cases hr
    | ok c2 p2 =>
      rw [hit] at hr
      simp only
      exact ih c2 p2 hr

theorem main_loop_extends (env : ProcEnv) (args : List String) (c : Surf) (p : Proc)
    (c' : Surf) (p' : Proc) (hr : main_loop env args c p = Result.ok c' p') :
    p.trace <+: p'.trace := by
  induction args generalizing c p with
  | nil =>
    simp only [main_loop] at hr
    injection hr with hc hp
    subst hp
    exact List.prefix_refl _
  | cons a rest ih =>
    simp only [main_loop] at hr
    cases hit : main_iteration env a c p with
    | exited code q =>
      rw [hit] at hr
      cases hr
    | ok c1 p1 =>
      rw [hit] at hr
      have h2 := ih c1 p1 hr
      refine List.IsPrefix.trans ?_ h2
      unfold main_iteration at hit
      cases hf : find_backend a (backends env.config) with
      | none =>
        rw [hf] at hit
        injection hit with hc hp
        subst hp
        exact List.prefix_append _ _
      | some b =>
        rw [hf] at hit
        simp only at hit
        cases hcf : call_factory b.create env none Content.CAIRO_CONTENT_COLOR_ALPHA 512 512 0
            (p.call [Call.cairo_surface_destroy c]) with
        | exited code q =>
          rw [hcf] at hit
          cases hit
        | ok s q =>
          rw [hcf] at hit
          injection hit with hc hp
          subst hp
          obtain ⟨_, _, e1, e2, ht, _, _⟩ := call_factory_shape _ _ _ _ _ _ _ _ _ _ hcf
          simp only [Proc.call] at ht ⊢
          rw [ht]
          simp only [List.append_assoc]
          exact List.prefix_append _ _

theorem main_trace_inv (env : ProcEnv) (argv : List String)
    (hd : env.XOpenDisplay = true ∨ ∀ a ∈ argv.drop 1, needs_display env.config a = false) :
    ∃ p T, main env argv = Result.ok (env.cairo_script_interpreter_destroy T) p ∧
      p.trace = T ++ [Call.cairo_script_interpreter_destroy
        (env.cairo_script_interpreter_destroy T)] ∧
      Inv p.trace (((argv.drop 1).filter (fun a => is_flag env.config a)).length + 1)
        (((argv.drop 1).filter (fun a => is_flag env.config a)).length + 1) ∧
      ran p.trace = (argv.drop 1).filter (fun a => !is_flag env.config a) ∧
      proc_at_loop.trace <+: p.trace := by
  obtain ⟨c, q, hl⟩ := main_loop_total env (argv.drop 1) 0 proc_at_loop hd
  obtain ⟨h1, h2, h3, h4⟩ := main_loop_inv env (argv.drop 1) 0 proc_at_loop c q hl rfl inv_at_loop
  have h5 := main_loop_extends env (argv.drop 1) 0 proc_at_loop c q hl
  have hc : c = ((argv.drop 1).filter (fun a => is_flag env.config a)).length := by
    rw [h3]; simp
  refine ⟨(q.call [Call.cairo_surface_destroy c]).call [Call.cairo_script_interpreter_destroy
      (env.cairo_script_interpreter_destroy (q.trace ++ [Call.cairo_surface_destroy c]))],
    q.trace ++ [Call.cairo_surface_destroy c], ?_, rfl, ?_, ?_, ?_⟩
  · simp only [main, main_setup_eq, hl, Proc.call]
  · have i1 := inv_destroy h2
    have i2 := inv_neutral i1 (Call.cairo_script_interpreter_destroy
      (env.cairo_script_interpreter_destroy (q.trace ++ [Call.cairo_surface_destroy c]))) rfl
    rw [← hc]
    simpa [Proc.call] using i2
  · simp only [Proc.call, ran_append, h4]
    simp [ran, proc_at_loop]
  · simp only [Proc.call, List.append_assoc]
    exact List.IsPrefix.trans h5 (List.prefix_append _ _)

theorem filter_is_flag (cfg : Config) (args : List String) :
    args.filter (fun a => is_flag cfg a)
      = args.filter (fun a => decide (a ∈ (backends cfg).map Backend.name)) := by
  apply List.filter_congr
  intro a _
  by_cases h : a ∈ (backends cfg).map Backend.name
  · simp only [h, decide_True]
    exact (is_flag_iff cfg a).mpr h
  · simp only [h, decide_False]
    cases hf : is_flag cfg a
    · rfl
    · exact absurd ((is_flag_iff cfg a).mp hf) h

theorem filter_not_is_flag (cfg : Config) (args : List String) :
    args.filter (fun a => !is_flag cfg a)
      = args.filter (fun a => decide (a ∉ (backends cfg).map Backend.name)) := by
  apply List.filter_congr
  intro a _
  by_cases h : a ∈ (backends cfg).map Backend.name
  · simp only [h, not_true_eq_false, decide_False]
    rw [(is_flag_iff cfg a).mpr h]; rfl
  · simp only [h, not_false_eq_true, decide_True]
    cases hf : is_flag cfg a
    · rfl
    · exact absurd ((is_flag_iff cfg a).mp hf) h

/-! ### Claims about `main` -/

/-- C7, as stated, fails: with the xlib backend compiled in and no display to open,
`csi-replay --xlib` ends in `_get_display` through `exit (1)`; `main` does not return and
the teardown (which would report `0`) is never called. -/
theorem exit_code_counterexample :
    main env_headless ["csi-replay", "--xlib"]
      = Result.exited 1
          { dpy := false, next_surface := 1,
            trace := [Call.surface_create Factory._image_surface_create 512 512 0,
                      Call.cairo_script_interpreter_create,
                      Call.cairo_script_interpreter_install_hooks 0,
                      Call.cairo_surface_destroy 0,
                      Call.XOpenDisplay false,
                      Call.fprintf_stderr "Failed to open display.\n",
                      Call.exit 1] } := by
  decide

/-- C7 (amended): whenever the display can be opened or no argument selects a backend whose
factory calls `_get_display`, `main` returns, and the value it returns is the value returned
by `cairo_script_interpreter_destroy`, the last call it makes. -/
theorem main_returns_teardown_value (env : ProcEnv) (argv : List String)
    (hd : env.XOpenDisplay = true ∨ ∀ a ∈ argv.drop 1, needs_display env.config a = false) :
    ∃ p T, main env argv = Result.ok (env.cairo_script_interpreter_destroy T) p ∧
      p.trace = T ++ [Call.cairo_script_interpreter_destroy
        (env.cairo_script_interpreter_destroy T)] := by
  obtain ⟨p, T, h1, h2, _⟩ := main_trace_inv env argv hd
  exact ⟨p, T, h1, h2⟩

/-- Witness for C7: a run with scripts and a backend switch on the image-only build. -/
theorem main_returns_teardown_value_witness :
    (env_image_only.XOpenDisplay = true ∨
      ∀ a ∈ ["csi-replay", "a.cs", "--image", "--xlib"].drop 1,
        needs_display env_image_only.config a = false) ∧
    ∃ p T, main env_image_only ["csi-replay", "a.cs", "--image", "--xlib"]
        = Result.ok (env_image_only.cairo_script_interpreter_destroy T) p ∧
      p.trace = T ++ [Call.cairo_script_interpreter_destroy
        (env_image_only.cairo_script_interpreter_destroy T)] :=
  ⟨Or.inr (by decide),
   main_returns_teardown_value env_image_only ["csi-replay", "a.cs", "--image", "--xlib"]
     (Or.inr (by decide))⟩

/-- C3, as stated, fails: with no display to open, `csi-replay --xrender a.cs` ends at
`--xrender`, so `a.cs`, an argument equal to no table name, is never run. -/
theorem runs_counterexample :
    ran (main env_headless ["csi-replay", "--xrender", "a.cs"]).trace = [] ∧
    (["csi-replay", "--xrender", "a.cs"].drop 1).filter
      (fun a => decide (a ∉ (backends env_headless.config).map Backend.name)) = ["a.cs"] := by
  decide

/-- C3 (amended): whenever the display can be opened or no argument selects a backend whose
factory calls `_get_display`, the paths handed to `cairo_script_interpreter_run` are exactly
the arguments `argv[1..]` that equal no name of the table, in order, each once. -/
theorem main_runs_non_flags (env : ProcEnv) (argv : List String)
    (hd : env.XOpenDisplay = true ∨ ∀ a ∈ argv.drop 1, needs_display env.config a = false) :
    ∃ ret p, main env argv = Result.ok ret p ∧
      ran p.trace = (argv.drop 1).filter
        (fun a => decide (a ∉ (backends env.config).map Backend.name)) := by
  obtain ⟨p, T, h1, _, _, h4, _⟩ := main_trace_inv env argv hd
  exact ⟨_, p, h1, by rw [h4, filter_not_is_flag]⟩

/-- Witness for C3: on the image-only build, a prefix of a flag, an extension of a flag
and the name of a backend that is not compiled in are all run as scripts. -/
theorem main_runs_non_flags_witness :
    (env_image_only.XOpenDisplay = true ∨
      ∀ a ∈ ["csi-replay", "--imag", "--image", "--images", "--pdf", "a.cs", "a.cs"].drop 1,
        needs_display env_image_only.config a = false) ∧
    (∃ ret p,
      main env_image_only ["csi-replay", "--imag", "--image", "--images", "--pdf", "a.cs", "a.cs"]
        = Result.ok ret p ∧
      ran p.trace
        = (["csi-replay", "--imag", "--image", "--images", "--pdf", "a.cs", "a.cs"].drop 1).filter
            (fun a => decide (a ∉ (backends env_image_only.config).map Backend.name))) ∧
    (["csi-replay", "--imag", "--image", "--images", "--pdf", "a.cs", "a.cs"].drop 1).filter
        (fun a => decide (a ∉ (backends env_image_only.config).map Backend.name))
      = ["--imag", "--images", "--pdf", "a.cs", "a.cs"] :=
  ⟨Or.inr (by decide),
   main_runs_non_flags env_image_only
     ["csi-replay", "--imag", "--image", "--images", "--pdf", "a.cs", "a.cs"]
     (Or.inr (by decide)),
   by decide⟩

/-- C4, as stated, fails: with no display to open, at the flag `--xlib` of
`csi-replay --pdf --xlib` the current target (surface `1`, from `--pdf`) is destroyed and
the process then ends in `_get_display`; no new target is constructed and the hooks are not
installed again. -/
theorem switch_counterexample :
    main_loop env_headless ["--pdf"] 0 proc_at_loop
      = Result.ok 1
          { dpy := false, next_surface := 2,
            trace := [Call.surface_create Factory._image_surface_create 512 512 0,
                      Call.cairo_script_interpreter_create,
                      Call.cairo_script_interpreter_install_hooks 0,
                      Call.cairo_surface_destroy 0,
                      Call.surface_create Factory._pdf_surface_create 512 512 1,
                      Call.cairo_script_interpreter_install_hooks 1] } ∧
    main_loop env_headless ["--pdf", "--xlib"] 0 proc_at_loop
      = Result.exited 1
          { dpy := false, next_surface := 2,
            trace := [Call.surface_create Factory._image_surface_create 512 512 0,
                      Call.cairo_script_interpreter_create,
                      Call.cairo_script_interpreter_install_hooks 0,
                      Call.cairo_surface_destroy 0,
                      Call.surface_create Factory._pdf_surface_create 512 512 1,
                      Call.cairo_script_interpreter_install_hooks 1,
                      Call.cairo_surface_destroy 1,
                      Call.XOpenDisplay false,
                      Call.fprintf_stderr "Failed to open display.\n",
                      Call.exit 1] } := by
  decide

/-- C4 (amended): when `main` reaches an argument that equals the name of table entry `b`
with target `c`, and the display can be opened or `b.create` does not call `_get_display`,
it destroys `c`, calls `b.create (NULL, CAIRO_CONTENT_COLOR_ALPHA, 512, 512, 0)`, makes the
surface `c'` that call constructed the target and installs the hooks with it; `c'` is not
`c` and was not constructed before. -/
theorem flag_switches_target (env : ProcEnv) (pre : List String) (arg : String) (b : Backend)
    (c0 : Surf) (p0 : Proc) (c : Surf) (p : Proc)
    (hs : main_setup env = Result.ok c0 p0)
    (hl : main_loop env pre c0 p0 = Result.ok c p)
    (hb : find_backend arg (backends env.config) = some b)
    (hd : env.XOpenDisplay = true ∨ needs_display env.config arg = false) :
    ∃ c' p2,
      call_factory b.create env none Content.CAIRO_CONTENT_COLOR_ALPHA 512 512 0
          (p.call [Call.cairo_surface_destroy c]) = Result.ok c' p2 ∧
      main_loop env (pre ++ [arg]) c0 p0
        = Result.ok c' (p2.call [Call.cairo_script_interpreter_install_hooks c']) ∧
      c' ≠ c ∧ c' ∉ created p.trace ∧ created p2.trace = created p.trace ++ [c'] := by
  rw [main_setup_eq] at hs
  injection hs with hc0 hp0
  subst hc0; subst hp0
  obtain ⟨hn, hI, _, _⟩ := main_loop_inv env pre 0 proc_at_loop c p hl rfl inv_at_loop
  have hd' : env.XOpenDisplay = true ∨ (p.call [Call.cairo_surface_destroy c]).dpy = true ∨
      (b.create ≠ Factory._xlib_surface_create ∧
       b.create ≠ Factory._xrender_surface_create) := by
    rcases hd with hd | hd
    · exact Or.inl hd
    · right; right
      simpa [needs_display, hb] using hd
  obtain ⟨p2, e1, e2, h1, h2, h3, h4, h5⟩ := call_factory_ok env b.create none
    Content.CAIRO_CONTENT_COLOR_ALPHA 512 512 0 (p.call [Call.cairo_surface_destroy c]) hd'
  have hnext : (p.call [Call.cairo_surface_destroy c]).next_surface = c + 1 := hn
  rw [hnext] at h1 h3
  refine ⟨c + 1, p2, h1, ?_, ?_, ?_, ?_⟩
  · rw [main_loop_append env pre [arg] 0 proc_at_loop c p hl]
    simp only [main_loop, main_iteration, hb, h1]
  · exact Nat.succ_ne_self c
  · rw [hI.created_eq]
    simp
  · rw [h3]
    simp only [Proc.call, created_append, created_neutrals e1 h4, created_neutrals e2 h5]
    simp [created]

/-- Witness for C4: `--xlib` after one script, on a machine with a display. -/
theorem flag_switches_target_witness :
    main_setup env_display = Result.ok 0 proc_at_loop ∧
    main_loop env_display ["a.cs"] 0 proc_at_loop
      = Result.ok 0 (proc_at_loop.call [Call.cairo_script_interpreter_run "a.cs"]) ∧
    find_backend "--xlib" (backends env_display.config)
      = some { name := "--xlib", create := Factory._xlib_surface_create } ∧
    (env_display.XOpenDisplay = true ∨ needs_display env_display.config "--xlib" = false) ∧
    ∃ c' p2,
      call_factory Factory._xlib_surface_create env_display none
          Content.CAIRO_CONTENT_COLOR_ALPHA 512 512 0
          ((proc_at_loop.call [Call.cairo_script_interpreter_run "a.cs"]).call
            [Call.cairo_surface_destroy 0]) = Result.ok c' p2 ∧
      main_loop env_display (["a.cs"] ++ ["--xlib"]) 0 proc_at_loop
        = Result.ok c' (p2.call [Call.cairo_script_interpreter_install_hooks c']) ∧
      c' ≠ 0 ∧
      c' ∉ created (proc_at_loop.call [Call.cairo_script_interpreter_run "a.cs"]).trace ∧
      created p2.trace
        = created (proc_at_loop.call [Call.cairo_script_interpreter_run "a.cs"]).trace ++ [c'] :=
  ⟨rfl, by decide, by decide, Or.inl rfl,
   flag_switches_target env_display ["a.cs"] "--xlib"
     { name := "--xlib", create := Factory._xlib_surface_create } 0 proc_at_loop 0
     (proc_at_loop.call [Call.cairo_script_interpreter_run "a.cs"])
     rfl (by decide) (by decide) (Or.inl rfl)⟩

theorem constructions_append (A B : List Call) :
    constructions (A ++ B) = constructions A ++ constructions B := by
  simp [constructions]

theorem constructions_neutrals (es : List Call) (he : ∀ e ∈ es, neutral e = true) :
    constructions es = [] := by
  induction es with
  | nil => rfl
  | cons e es ih =>
    have h1 := he e (List.mem_cons_self _ _)
    have h2 := ih (fun x hx => he x (List.mem_cons_of_mem _ hx))
    have h3 : constructions (e :: es) = constructions [e] ++ constructions es :=
      constructions_append [e] es
    rw [h3, h2]
    cases e <;> simp [constructions, neutral] at h1 ⊢

theorem main_iteration_constructions (env : ProcEnv) (arg : String) (c : Surf) (p : Proc)
    (c' : Surf) (p' : Proc) (hr : main_iteration env arg c p = Result.ok c' p')
    (hn : p.next_surface = c + 1) :
    constructions p'.trace = constructions p.trace ++
      (match find_backend arg (backends env.config) with
       | some b => [(b.create, c + 1)]
       | none => []) := by
  unfold main_iteration at hr
  cases hf : find_backend arg (backends env.config) with
  | none =>
    rw [hf] at hr
    injection hr with hc hp
    subst hc; subst hp
    simp [Proc.call, constructions]
  | some b =>
    rw [hf] at hr
    simp only at hr
    cases hcf : call_factory b.create env none Content.CAIRO_CONTENT_COLOR_ALPHA 512 512 0
        (p.call [Call.cairo_surface_destroy c]) with
    | exited code q =>
      rw [hcf] at hr
      cases hr
    | ok s q =>
      rw [hcf] at hr
      injection hr with hc hp
      subst hc; subst hp
      obtain ⟨hs, _, e1, e2, ht, h1, h2⟩ := call_factory_shape _ _ _ _ _ _ _ _ _ _ hcf
      have hs' : s = c + 1 := by rw [hs]; exact hn
      subst hs'
      simp only [Proc.call] at ht ⊢
      rw [ht]
      simp only [constructions_append, constructions_neutrals e1 h1,
        constructions_neutrals e2 h2]
      simp [constructions]

theorem main_loop_target (env : ProcEnv) (args : List String) (f : Factory) (c : Surf)
    (p : Proc) (c' : Surf) (p' : Proc) (hr : main_loop env args c p = Result.ok c' p')
    (hn : p.next_surface = c + 1) (hI : Inv p.trace c (c + 1))
    (hlast : (constructions p.trace).getLast? = some (f, c)) :
    (constructions p'.trace).getLast? = some (factory_in_force env.config f args, c') := by
  induction args generalizing f c p with
  | nil =>
    simp only [main_loop] at hr
    injection hr with hc hp
    subst hc; subst hp
    exact hlast
  | cons a rest ih =>
    simp only [main_loop] at hr
    cases hit : main_iteration env a c p with
    | exited code q =>
      rw [hit] at hr
      cases hr
    | ok c1 p1 =>
      rw [hit] at hr
      obtain ⟨h1, h2, h3, _⟩ := main_iteration_inv env a c p c1 p1 hit hn hI
      have hcon := main_iteration_constructions env a c p c1 p1 hit hn
      cases hf : find_backend a (backends env.config) with
      | none =>
        have hfl : ¬ is_flag env.config a = true := by simp [is_flag, hf]
        have hc1 : c1 = c := by rw [h3, if_neg hfl]; rfl
        subst hc1
        rw [hf] at hcon
        have hlast1 : (constructions p1.trace).getLast? = some (f, c1) := by
          rw [hcon]; simpa using hlast
        have := ih f c1 p1 hr h1 h2 hlast1
        simpa [factory_in_force, hf] using this
      | some b =>
        have hfl : is_flag env.config a = true := by simp [is_flag, hf]
        have hc1 : c1 = c + 1 := by rw [h3, if_pos hfl]
        subst hc1
        rw [hf] at hcon
        have hlast1 : (constructions p1.trace).getLast? = some (b.create, c + 1) := by
          rw [hcon]; exact List.getLast?_concat _
        have := ih b.create (c + 1) p1 hr h1 h2 hlast1
        simpa [factory_in_force, hf] using this

theorem main_loop_factories (env : ProcEnv) (args : List String) (c : Surf)
    (p : Proc) (c' : Surf) (p' : Proc) (hr : main_loop env args c p = Result.ok c' p')
    (hn : p.next_surface = c + 1) (hI : Inv p.trace c (c + 1)) :
    (constructions p'.trace).map Prod.fst = (constructions p.trace).map Prod.fst ++
      (args.filterMap (fun a => find_backend a (backends env.config))).map Backend.create := by
  induction args generalizing c p with
  | nil =>
    simp only [main_loop] at hr
    injection hr with hc hp
    subst hc; subst hp
    simp
  | cons a rest ih =>
    simp only [main_loop] at hr
    cases hit : main_iteration env a c p with
    | exited code q =>
      rw [hit] at hr
      cases hr
    | ok c1 p1 =>
      rw [hit] at hr
      obtain ⟨h1, h2, _, _⟩ := main_iteration_inv env a c p c1 p1 hit hn hI
      have hcon := main_iteration_constructions env a c p c1 p1 hit hn
      have := ih c1 p1 hr h1 h2
      rw [this, hcon]
      cases hf : find_backend a (backends env.config) with
      | none => simp [List.filterMap_cons, hf]
      | some b => simp [List.filterMap_cons, hf]

theorem main_loop_split (env : ProcEnv) (pre rest : List String) (c : Surf) (p : Proc)
    (c' : Surf) (p' : Proc) (hr : main_loop env (pre ++ rest) c p = Result.ok c' p') :
    ∃ c1 q, main_loop env pre c p = Result.ok c1 q ∧
      main_loop env rest c1 q = Result.ok c' p' := by
  induction pre generalizing c p with
  | nil => exact ⟨c, p, rfl, hr⟩
  | cons a pre ih =>
    simp only [List.cons_append, main_loop] at hr ⊢
    cases hit : main_iteration env a c p with
    | exited code q =>
      rw [hit] at hr
      cases hr
    | ok c1 p1 =>
      rw [hit] at hr
      simp only
      exact ih c1 p1 hr

theorem main_loop_result (env : ProcEnv) (argv : List String)
    (hd : env.XOpenDisplay = true ∨ ∀ a ∈ argv.drop 1, needs_display env.config a = false) :
    ∃ c q, main_loop env (argv.drop 1) 0 proc_at_loop = Result.ok c q ∧
      main env argv
        = Result.ok (env.cairo_script_interpreter_destroy
            (q.trace ++ [Call.cairo_surface_destroy c]))
          ((q.call [Call.cairo_surface_destroy c]).call [Call.cairo_script_interpreter_destroy
            (env.cairo_script_interpreter_destroy
              (q.trace ++ [Call.cairo_surface_destroy c]))]) := by
  obtain ⟨c, q, hl⟩ := main_loop_total env (argv.drop 1) 0 proc_at_loop hd
  exact ⟨c, q, hl, by simp only [main, main_setup_eq, hl, Proc.call]⟩

/-- C10, as stated, fails: with no display to open, `csi-replay a.cs --xlib` has one
argument matching a flag, yet only one target is constructed (not two), because the process
ends in `_get_display` after destroying the first target. -/
theorem lifecycle_counterexample :
    ((["csi-replay", "a.cs", "--xlib"].drop 1).filter
      (fun a => decide (a ∈ (backends env_headless.config).map Backend.name))).length = 1 ∧
    created (main env_headless ["csi-replay", "a.cs", "--xlib"]).trace = [0] ∧
    destroyed (main env_headless ["csi-replay", "a.cs", "--xlib"]).trace = [0] := by
  decide

theorem main_iteration_flag_shape (env : ProcEnv) (arg : String) (b : Backend) (c : Surf)
    (p : Proc) (c' : Surf) (p' : Proc) (hr : main_iteration env arg c p = Result.ok c' p')
    (hf : find_backend arg (backends env.config) = some b) (hn : p.next_surface = c + 1) :
    ∃ e1 e2, p'.trace = p.trace ++ Call.cairo_surface_destroy c ::
        (e1 ++ Call.surface_create b.create 512 512 (c + 1) ::
          (e2 ++ [Call.cairo_script_interpreter_install_hooks (c + 1)])) ∧
      (∀ e ∈ e1, neutral e = true) ∧ (∀ e ∈ e2, neutral e = true) := by
  unfold main_iteration at hr
  rw [hf] at hr
  simp only at hr
  cases hcf : call_factory b.create env none Content.CAIRO_CONTENT_COLOR_ALPHA 512 512 0
      (p.call [Call.cairo_surface_destroy c]) with
  | exited code q =>
    rw [hcf] at hr
    cases hr
  | ok s q =>
    rw [hcf] at hr
    injection hr with hc hp
    subst hc; subst hp
    obtain ⟨hs, _, e1, e2, ht, h1, h2⟩ := call_factory_shape _ _ _ _ _ _ _ _ _ _ hcf
    have hs' : s = c + 1 := by rw [hs]; exact hn
    subst hs'
    refine ⟨e1, e2, ?_, h1, h2⟩
    simp only [Proc.call] at ht ⊢
    rw [ht]
    simp

theorem find_backend_of_not_name (cfg : Config) (a : String)
    (ha : a ∉ (backends cfg).map Backend.name) : find_backend a (backends cfg) = none := by
  cases hf : find_backend a (backends cfg) with
  | none => rfl
  | some b =>
    have h := find_backend_some a _ b hf
    exact absurd (List.mem_map.mpr ⟨b, h.1, h.2⟩) ha

/-- C10 (amended): whenever the display can be opened or no argument selects a backend whose
factory calls `_get_display`, `main` returns and, with `k` the number of arguments equal to a
table name: the first call constructs the image target; `k + 1` targets are constructed and
`k + 1` destroyed; the factories called are `_image_surface_create` and then, in order, the
factory of each argument that equals a table name; the constructed targets are pairwise
distinct and each is destroyed exactly once; at no point has a target been destroyed that
was not constructed before; at every script run the target constructed last has not been
destroyed. Moreover, for every position of `argv`: if the argument there equals no table
name, its run comes when the scripts run so far are the earlier such arguments and the
surface constructed last is the one made by the factory of the nearest preceding flag (the
image target when there is none), numbered by the flags before it, and not destroyed; if
the argument there equals the name of entry `b`, then at that point the target in force is
destroyed and the constructor of `b.create` makes the next one. -/
theorem target_lifecycle (env : ProcEnv) (argv : List String)
    (hd : env.XOpenDisplay = true ∨ ∀ a ∈ argv.drop 1, needs_display env.config a = false) :
    ∃ ret p, main env argv = Result.ok ret p ∧
      p.trace.head? = some (Call.surface_create Factory._image_surface_create 512 512 0) ∧
      (created p.trace).length
        = ((argv.drop 1).filter
            (fun a => decide (a ∈ (backends env.config).map Backend.name))).length + 1 ∧
      (destroyed p.trace).length
        = ((argv.drop 1).filter
            (fun a => decide (a ∈ (backends env.config).map Backend.name))).length + 1 ∧
      (created p.trace).Nodup ∧
      (∀ s ∈ created p.trace, (destroyed p.trace).count s = 1) ∧
      (∀ s ∈ destroyed p.trace, s ∈ created p.trace) ∧
      (∀ pre, pre <+: p.trace → ∀ s ∈ destroyed pre, s ∈ created pre) ∧
      (∀ pre path, pre ++ [Call.cairo_script_interpreter_run path] <+: p.trace →
        ∃ t, (created pre).getLast? = some t ∧ t ∉ destroyed pre) ∧
      (constructions p.trace).map Prod.fst
        = Factory._image_surface_create ::
            ((argv.drop 1).filterMap
              (fun a => find_backend a (backends env.config))).map Backend.create ∧
      (∀ pre a post, argv.drop 1 = pre ++ a :: post →
        a ∉ (backends env.config).map Backend.name →
        ∃ T1 T2, p.trace = T1 ++ Call.cairo_script_interpreter_run a :: T2 ∧
          ran T1 = pre.filter
            (fun x => decide (x ∉ (backends env.config).map Backend.name)) ∧
          (constructions T1).getLast?
            = some (factory_in_force env.config Factory._image_surface_create pre,
                (pre.filter
                  (fun x => decide (x ∈ (backends env.config).map Backend.name))).length) ∧
          destroyed T1 = List.range (pre.filter
            (fun x => decide (x ∈ (backends env.config).map Backend.name))).length ∧
          (pre.filter
            (fun x => decide (x ∈ (backends env.config).map Backend.name))).length
              ∉ destroyed T1) ∧
      (∀ pre a post b, argv.drop 1 = pre ++ a :: post →
        find_backend a (backends env.config) = some b →
        ∃ T1 E T2, p.trace = T1 ++ Call.cairo_surface_destroy (pre.filter
              (fun x => decide (x ∈ (backends env.config).map Backend.name))).length ::
            (E ++ Call.surface_create b.create 512 512 ((pre.filter
              (fun x => decide (x ∈ (backends env.config).map Backend.name))).length + 1)
              :: T2) ∧
          (∀ e ∈ E, neutral e = true) ∧
          ran T1 = pre.filter
            (fun x => decide (x ∉ (backends env.config).map Backend.name)) ∧
          (constructions T1).getLast?
            = some (factory_in_force env.config Factory._image_surface_create pre,
                (pre.filter
                  (fun x => decide (x ∈ (backends env.config).map Backend.name))).length) ∧
          destroyed T1 = List.range (pre.filter
            (fun x => decide (x ∈ (backends env.config).map Backend.name))).length) := by
  obtain ⟨c, q, hl, hmain⟩ := main_loop_result env argv hd
  obtain ⟨p, T, h1, _, hI, _, h5⟩ := main_trace_inv env argv hd
  rw [filter_is_flag] at hI
  have hp : p = (q.call [Call.cairo_surface_destroy c]).call
      [Call.cairo_script_interpreter_destroy (env.cairo_script_interpreter_destroy
        (q.trace ++ [Call.cairo_surface_destroy c]))] := by
    rw [hmain] at h1
    injection h1 with _ hp
    exact hp.symm
  have hlast0 : (constructions proc_at_loop.trace).getLast?
      = some (Factory._image_surface_create, 0) := rfl
  refine ⟨_, p, h1, ?_, ?_, ?_, ?_, ?_, ?_, ?_, ?_, ?_, ?_, ?_⟩
  · obtain ⟨t, ht⟩ := h5
    rw [← ht]
    rfl
  · rw [hI.created_eq]; simp
  · rw [hI.destroyed_eq]; simp
  · rw [hI.created_eq]; exact List.nodup_range _
  · intro s hs
    rw [hI.created_eq] at hs
    rw [hI.destroyed_eq]
    exact List.count_eq_one_of_mem (List.nodup_range _) hs
  · intro s hs
    rw [hI.destroyed_eq] at hs
    rw [hI.created_eq]
    exact hs
  · intro pre hpre s hs
    obtain ⟨m, hm1, hm2⟩ := hI.every_pre pre hpre
    rw [hm1] at hs
    rcases hm2 with hm2 | hm2
    · rw [hm2]; exact hs
    · rw [hm2]
      exact List.mem_range.mpr (Nat.lt_succ_of_lt (List.mem_range.mp hs))
  · intro pre path hpre
    obtain ⟨m, hm1, hm2⟩ := hI.runs pre path hpre
    refine ⟨m, ?_, ?_⟩
    · rw [hm1, List.range_succ, List.getLast?_concat]
    · rw [hm2]
      simp
  · have hf := main_loop_factories env (argv.drop 1) 0 proc_at_loop c q hl rfl inv_at_loop
    rw [hp]
    simp only [Proc.call, constructions_append, List.map_append, hf]
    simp [constructions, proc_at_loop]
  · intro pre a post hsplit ha
    rw [hsplit] at hl
    obtain ⟨c1, q1, hpre, hrest⟩ := main_loop_split env pre (a :: post) 0 proc_at_loop c q hl
    obtain ⟨g1, g2, g3, g4⟩ := main_loop_inv env pre 0 proc_at_loop c1 q1 hpre rfl inv_at_loop
    have g5 := main_loop_target env pre Factory._image_surface_create 0 proc_at_loop c1 q1
      hpre rfl inv_at_loop hlast0
    have hc1 : c1 = (pre.filter
        (fun x => decide (x ∈ (backends env.config).map Backend.name))).length := by
      rw [g3, filter_is_flag]; simp
    have hnone := find_backend_of_not_name env.config a ha
    have hit : main_iteration env a c1 q1
        = Result.ok c1 (q1.call [Call.cairo_script_interpreter_run a]) := by
      simp only [main_iteration, hnone]
    simp only [main_loop, hit] at hrest
    obtain ⟨T2, hT2⟩ := main_loop_extends env post c1 _ c q hrest
    refine ⟨q1.trace, T2 ++ [Call.cairo_surface_destroy c,
      Call.cairo_script_interpreter_destroy (env.cairo_script_interpreter_destroy
        (q.trace ++ [Call.cairo_surface_destroy c]))], ?_, ?_, ?_, ?_, ?_⟩
    · rw [hp]
      simp only [Proc.call] at hT2 ⊢
      rw [← hT2]
      simp
    · rw [g4, filter_not_is_flag]
      simp [ran, proc_at_loop]
    · rw [g5, hc1]
    · rw [g2.destroyed_eq, hc1]
    · rw [g2.destroyed_eq, hc1]
      simp
  · intro pre a post b hsplit hb
    rw [hsplit] at hl
    obtain ⟨c1, q1, hpre, hrest⟩ := main_loop_split env pre (a :: post) 0 proc_at_loop c q hl
    obtain ⟨g1, g2, g3, g4⟩ := main_loop_inv env pre 0 proc_at_loop c1 q1 hpre rfl inv_at_loop
    have g5 := main_loop_target env pre Factory._image_surface_create 0 proc_at_loop c1 q1
      hpre rfl inv_at_loop hlast0
    have hc1 : c1 = (pre.filter
        (fun x => decide (x ∈ (backends env.config).map Backend.name))).length := by
      rw [g3, filter_is_flag]; simp
    simp only [main_loop] at hrest
    cases hit : main_iteration env a c1 q1 with
    | exited code r =>
      rw [hit] at hrest
      cases hrest
    | ok c2 q2 =>
      rw [hit] at hrest
      simp only at hrest
      obtain ⟨e1, e2, hq2, hn1, _⟩ :=
        main_iteration_flag_shape env a b c1 q1 c2 q2 hit hb g1
      obtain ⟨T2, hT2⟩ := main_loop_extends env post c2 q2 c q hrest
      refine ⟨q1.trace, e1, e2 ++ Call.cairo_script_interpreter_install_hooks (c1 + 1) ::
        (T2 ++ [Call.cairo_surface_destroy c,
          Call.cairo_script_interpreter_destroy (env.cairo_script_interpreter_destroy
            (q.trace ++ [Call.cairo_surface_destroy c]))]), ?_, hn1, ?_, ?_, ?_⟩
      · rw [hp]
        simp only [Proc.call]
        rw [← hT2, hq2, ← hc1]
        simp
      · rw [g4, filter_not_is_flag]
        simp [ran, proc_at_loop]
      · rw [g5, hc1]
      · rw [g2.destroyed_eq, hc1]

/-- Witness for C10: two backend switches and two scripts on a machine with a display. -/
theorem target_lifecycle_witness :
    (env_display.XOpenDisplay = true ∨
      ∀ a ∈ ["csi-replay", "a.cs", "--xlib", "b.cs", "--image"].drop 1,
        needs_display env_display.config a = false) ∧
    ∃ ret p, main env_display
        ["csi-replay", "a.cs", "--xlib", "b.cs", "--image"] = Result.ok ret p ∧
      p.trace.head? = some (Call.surface_create Factory._image_surface_create 512 512 0) ∧
      (created p.trace).length
        = ((["csi-replay", "a.cs", "--xlib", "b.cs", "--image"].drop 1).filter
            (fun a => decide (a ∈ (backends env_display.config).map Backend.name))).length + 1 ∧
      (destroyed p.trace).length
        = ((["csi-replay", "a.cs", "--xlib", "b.cs", "--image"].drop 1).filter
            (fun a => decide (a ∈ (backends env_display.config).map Backend.name))).length + 1 ∧
      (created p.trace).Nodup ∧
      (∀ s ∈ created p.trace, (destroyed p.trace).count s = 1) ∧
      (∀ s ∈ destroyed p.trace, s ∈ created p.trace) ∧
      (∀ pre, pre <+: p.trace → ∀ s ∈ destroyed pre, s ∈ created pre) ∧
      (∀ pre path, pre ++ [Call.cairo_script_interpreter_run path] <+: p.trace →
        ∃ t, (created pre).getLast? = some t ∧ t ∉ destroyed pre) ∧
      (constructions p.trace).map Prod.fst
        = Factory._image_surface_create ::
            ((["csi-replay", "a.cs", "--xlib", "b.cs", "--image"].drop 1).filterMap
              (fun a => find_backend a (backends env_display.config))).map Backend.create ∧
      (∀ pre a post, ["csi-replay", "a.cs", "--xlib", "b.cs", "--image"].drop 1 = pre ++ a :: post →
        a ∉ (backends env_display.config).map Backend.name →
        ∃ T1 T2, p.trace = T1 ++ Call.cairo_script_interpreter_run a :: T2 ∧
          ran T1 = pre.filter
            (fun x => decide (x ∉ (backends env_display.config).map Backend.name)) ∧
          (constructions T1).getLast?
            = some (factory_in_force env_display.config Factory._image_surface_create pre,
                (pre.filter
                  (fun x => decide (x ∈ (backends env_display.config).map Backend.name))).length) ∧
          destroyed T1 = List.range (pre.filter
            (fun x => decide (x ∈ (backends env_display.config).map Backend.name))).length ∧
          (pre.filter
            (fun x => decide (x ∈ (backends env_display.config).map Backend.name))).length
              ∉ destroyed T1) ∧
      (∀ pre a post b, ["csi-replay", "a.cs", "--xlib", "b.cs", "--image"].drop 1 = pre ++ a :: post →
        find_backend a (backends env_display.config) = some b →
        ∃ T1 E T2, p.trace = T1 ++ Call.cairo_surface_destroy (pre.filter
              (fun x => decide (x ∈ (backends env_display.config).map Backend.name))).length ::
            (E ++ Call.surface_create b.create 512 512 ((pre.filter
              (fun x => decide (x ∈ (backends env_display.config).map Backend.name))).length + 1)
              :: T2) ∧
          (∀ e ∈ E, neutral e = true) ∧
          ran T1 = pre.filter
            (fun x => decide (x ∉ (backends env_display.config).map Backend.name)) ∧
          (constructions T1).getLast?
            = some (factory_in_force env_display.config Factory._image_surface_create pre,
                (pre.filter
                  (fun x => decide (x ∈ (backends env_display.config).map Backend.name))).length) ∧
          destroyed T1 = List.range (pre.filter
            (fun x => decide (x ∈ (backends env_display.config).map Backend.name))).length) :=
  ⟨Or.inl rfl,
   target_lifecycle env_display ["csi-replay", "a.cs", "--xlib", "b.cs", "--image"] (Or.inl rfl)⟩

end CsiReplay
